import Mathlib

/-!
Verification of the netlog event-correlation engine of the speed-test-analysis
repository.  JavaScript sources are shallowly embedded: JS numbers appearing as
event timestamps, byte counts and ids are modelled as `Int`/`Nat`, JS division
producing fractional values is modelled in `ℚ`, absent object fields are
modelled with `Option`, and JS truthiness is modelled explicitly where the code
relies on it.  Each section names the source file and function it embeds.
-/

/-- JS `String.prototype.includes`: substring containment. -/
def jsIncludes (s sub : String) : Bool :=
  decide (sub.data <:+: s.data)

/-- `params` object of a netlog event: an open payload whose fields depend on
the event type.  Only the fields the embedded code reads are modelled; a field
the event does not carry is `none`. -/
structure Params where
  url : Option String
  line : Option String
  byte_count : Option Int
  current_position : Option Int
  source_dependency : Option Nat
  key : Option String
  created : Bool
deriving DecidableEq, Repr

/-- A `params` object carrying no fields. -/
def Params.empty : Params := ⟨none, none, none, none, none, none, false⟩

/-- One netlog event: numeric type code, timestamp, `source.id`, and optional
`params` (JS events may lack the `params` property entirely). -/
structure Event where
  type : Nat
  time : Int
  source_id : Nat
  params : Option Params
deriving DecidableEq, Repr

/-- Resolved event-name → numeric-code table (`logEvent_ids` after
`mapEventNamesToIds`), restricted to the names the embedded code looks up. -/
structure LogIds where
  REQUEST_ALIVE : Nat
  URL_REQUEST_JOB_FILTERED_BYTES_READ : Nat
  URL_REQUEST_BYTES_READ : Nat
  UPLOAD_DATA_STREAM_READ : Nat
  HTTP_TRANSACTION_SEND_REQUEST_HEADERS : Nat
  HTTP_TRANSACTION_READ_RESPONSE_HEADERS : Nat
  HTTP_STREAM_REQUEST_BOUND_TO_JOB : Nat
  SOCKET_POOL_BOUND_TO_SOCKET : Nat
deriving DecidableEq, Repr

namespace FilterUrls

/-!
Embedding of `separateHelloUrlsByTiming` from
`src/ookla/netlog-filter/filter-urls.js` (lines 208-270).  Its input
`url_list` holds, per category, `[url, sourceId]` pairs in first-seen order.
-/

/-- The `url_list` object built by `collectUrlsFromNetlog`: per category a list
of `[url, sourceId]` pairs (the `ws` entries are not read by
`separateHelloUrlsByTiming` and are omitted). -/
structure UrlList where
  download : List (String × Int)
  upload : List (String × Int)
  hello : List (String × Int)
deriving DecidableEq, Repr

/-- The four hello-URL buckets returned by `separateHelloUrlsByTiming`:
`download.unload`, `download.load`, `upload.unload`, `upload.load`. -/
structure LatencyUrls where
  download_unload : List String
  download_load : List String
  upload_unload : List String
  upload_load : List String
deriving DecidableEq, Repr

/-- JS truthiness of a possibly-undefined numeric id (`first_download_id &&`
style guards): `undefined` and `0` are falsy. -/
def jsTruthyId : Option Int → Bool
  | none => false
  | some v => v != 0

/-- `separateHelloUrlsByTiming` of `filter-urls.js`: boundary ids are the first
and last download pair's id and the first upload pair's id (left undefined when
the list is empty); each hello pair is pushed to the bucket selected by the
chained `if`/`else if` id comparisons, or to no bucket when no branch fires. -/
def separateHelloUrlsByTiming (url_list : UrlList) : LatencyUrls :=
  let first_download_id : Option Int := url_list.download.head?.map Prod.snd
  let last_download_id : Option Int := url_list.download.getLast?.map Prod.snd
  let first_upload_id : Option Int := url_list.upload.head?.map Prod.snd
  url_list.hello.foldl (fun acc p =>
    let url := p.1
    let hello_id := p.2
    if jsTruthyId first_download_id && decide (hello_id < first_download_id.getD 0) then
      { acc with download_unload := acc.download_unload ++ [url] }
    else if jsTruthyId first_download_id && jsTruthyId last_download_id &&
        decide (first_download_id.getD 0 < hello_id) &&
        decide (hello_id < last_download_id.getD 0) then
      { acc with download_load := acc.download_load ++ [url] }
    else if jsTruthyId last_download_id && jsTruthyId first_upload_id &&
        decide (last_download_id.getD 0 < hello_id) &&
        decide (hello_id < first_upload_id.getD 0) then
      { acc with upload_unload := acc.upload_unload ++ [url] }
    else if jsTruthyId first_upload_id && decide (first_upload_id.getD 0 < hello_id) then
      { acc with upload_load := acc.upload_load ++ [url] }
    else acc) ⟨[], [], [], []⟩

/-- The P7 scenario: payload download URLs with source ids 100 and 105, no
upload URLs, hello URLs with source ids 50, 102 and 110. -/
def p7Input : UrlList :=
  ⟨[("url100", 100), ("url105", 105)], [],
   [("url50", 50), ("url102", 102), ("url110", 110)]⟩

/-- Input with no payload URLs at all and a single hello URL. -/
def noPayloadInput : UrlList := ⟨[], [], [("hello1", 1)]⟩

end FilterUrls

namespace UrlFilter

/-!
Embedding of the time-based `separateHelloUrlsByTiming` from
`src/ookla/data-extraction/url_filter.js` (lines 183-252).  It classifies each
hello URL as idle or loaded latency by comparing the average time of its events
against the earliest download/upload event time.
-/

/-- Timestamps of every event whose `params.url` contains `/download` or
`/upload` (first branch of the collection pass). -/
def downloadTimes (events : List Event) : List Int :=
  events.filterMap fun e =>
    match e.params with
    | some p =>
      match p.url with
      | some u =>
        if jsIncludes u "/download" || jsIncludes u "/upload" then some e.time else none
      | none => none
    | none => none

/-- `(time, url)` of every event whose `params.url` contains `/hello` but not
`/download` or `/upload` (the `else if` branch of the collection pass). -/
def helloTimes (events : List Event) : List (Int × String) :=
  events.filterMap fun e =>
    match e.params with
    | some p =>
      match p.url with
      | some u =>
        if jsIncludes u "/download" || jsIncludes u "/upload" then none
        else if jsIncludes u "/hello" then some (e.time, u) else none
      | none => none
    | none => none

/-- `urlTimings[url]`: the times of all hello events carrying exactly this URL,
in event order. -/
def urlTimings (events : List Event) (url : String) : List Int :=
  ((helloTimes events).filter (fun t => t.2 == url)).map Prod.fst

/-- `Math.min(...)` over a list of numbers (only applied to nonempty lists). -/
def jsMathMin : List Int → Int
  | [] => 0
  | x :: xs => xs.foldl min x

/-- Classification step for one hello URL: no recorded timing → loaded-latency
fallback; otherwise average time before the first download time → idle, else
loaded.  The accumulator is `(idleLatencyUrls, loadedLatencyUrls)`. -/
def classifyHello (events : List Event) (firstDownloadTime : Int)
    (acc : List String × List String) (url : String) : List String × List String :=
  let times := urlTimings events url
  if times.length = 0 then (acc.1, acc.2 ++ [url])
  else
    let avgTime : ℚ := ((times.foldl (fun a b => a + b) 0 : Int) : ℚ) / (times.length : ℚ)
    if avgTime < (firstDownloadTime : ℚ) then (acc.1 ++ [url], acc.2)
    else (acc.1, acc.2 ++ [url])

/-- `separateHelloUrlsByTiming` of `url_filter.js`: with no download/upload
events every hello URL is idle latency; otherwise each hello URL is classified
against the earliest download/upload time.  Returns
`(idleLatencyUrls, loadedLatencyUrls)`. -/
def separateHelloUrlsByTiming (events : List Event) (helloUrls : List String) :
    List String × List String :=
  if (downloadTimes events).length = 0 then (helloUrls, [])
  else helloUrls.foldl (classifyHello events (jsMathMin (downloadTimes events))) ([], [])

end UrlFilter

/-- JS `url.split("/")` on list-of-characters form (splitting on a single
slash character, which is what the embedded code does). -/
def splitOnChar (c : Char) : List Char → List (List Char)
  | [] => [[]]
  | x :: xs =>
    match splitOnChar c xs with
    | [] => if x = c then [[], []] else [[x]]
    | h :: t => if x = c then [] :: h :: t else (x :: h) :: t

/-- `url.split("/").slice(3).join("/")`: drop the scheme and host components,
keep the path-and-query fragment. -/
def splitUrl (u : String) : String :=
  String.intercalate "/" (((splitOnChar '/' u.data).map String.mk).drop 3)

namespace FilterNetlog

/-!
Embedding of `src/unnamed/part_005` (the `filter-netlog-data.js` variant used
for conventional Ookla tests): `splitTestTypeUrls`, the main event loop
(checks #1-#5), `captureThroughputData`, `captureLatencyData` and
`calculateLatencyStatistics`.
-/

/-- The parsed URL-list file (`download_urls.json` / `upload_urls.json`):
payload URLs per direction plus the legacy `load`/`unload` latency lists. -/
structure UrlJson where
  download : List String
  upload : List String
  load : List String
  unload : List String
deriving DecidableEq, Repr

/-- Output of `splitTestTypeUrls`, together with the `testType` module variable
it assigns as a side effect. -/
structure SplitUrls where
  testType : String
  split_urls : List String
  split_unloaded_urls : List String
  split_loaded_urls : List String
deriving DecidableEq, Repr

/-- `splitTestTypeUrls`: picks the test direction (download wins when both URL
lists are non-empty), then strips every selected payload URL and every
`unload`/`load` latency URL down to its path fragment. -/
def splitTestTypeUrls (urlJSON : UrlJson) : SplitUrls :=
  let testTypeUrls : String × List String :=
    if urlJSON.download.length > 0 then ("download", urlJSON.download)
    else if urlJSON.upload.length > 0 then ("upload", urlJSON.upload)
    else ("", [])
  { testType := testTypeUrls.1
    split_urls := testTypeUrls.2.map splitUrl
    split_unloaded_urls := if urlJSON.unload.length > 0 then urlJSON.unload.map splitUrl else []
    split_loaded_urls := if urlJSON.load.length > 0 then urlJSON.load.map splitUrl else [] }

/-- Entry pushed onto `results` by check #1 (`{sourceID, index, dict}`; the
`sourceID` object is represented by its `id`, which is all later code reads). -/
structure ResultEntry where
  sourceID : Nat
  index : Nat
  dict : Event
deriving DecidableEq, Repr

/-- One `{bytecount, time}` progress entry of `byte_time_list`. -/
structure ByteProgress where
  bytecount : Int
  time : Int
deriving DecidableEq, Repr

/-- One `{current_position, time}` progress entry of `current_position_list`. -/
structure PositionProgress where
  current_position : Int
  time : Int
deriving DecidableEq, Repr

/-- One `byte_time_list` record: `{id, type, progress}`. -/
structure ByteTimeRecord where
  id : Nat
  type : String
  progress : List ByteProgress
deriving DecidableEq, Repr

/-- One `current_position_list` record: `{id, type, progress}`. -/
structure PositionRecord where
  id : Nat
  type : String
  progress : List PositionProgress
deriving DecidableEq, Repr

/-- One latency stream: `{id, send_time, recv_time, rtt}` with nullable
timestamps (`Number(eventData.time)` is an integer for netlog captures). -/
structure LatencyStream where
  id : Nat
  send_time : Option Int
  recv_time : Option Int
  rtt : Option Int
deriving DecidableEq, Repr

/-- The mutable state threaded through the main event loop of `part_005`. -/
structure NetState where
  results : List ResultEntry
  byte_time_list : List ByteTimeRecord
  current_position_list : List PositionRecord
  test_latency : List LatencyStream
  unloaded_latency : List LatencyStream
  loaded_latency : List LatencyStream
deriving DecidableEq, Repr

/-- Check #1 condition as written in the source: `params` present and an
object, `params.url` present, and
`split_urls.some(url => eventData.params.url.includes(url) && eventData.type
=== logEvent_ids['REQUEST_ALIVE'])` with the type test nested inside the
`some` callback. -/
def isOpening (ids : LogIds) (split_urls : List String) (e : Event) : Bool :=
  match e.params with
  | none => false
  | some p =>
    match p.url with
    | none => false
    | some u => split_urls.any (fun url => jsIncludes u url && e.type == ids.REQUEST_ALIVE)

/-- The two-independent-predicate form of the opening-event condition that the
spec recommends: URL match and type match as separate conjuncts. -/
def isOpeningTwoPredicate (ids : LogIds) (split_urls : List String) (e : Event) : Bool :=
  match e.params with
  | none => false
  | some p =>
    match p.url with
    | none => false
    | some u => split_urls.any (fun url => jsIncludes u url) && e.type == ids.REQUEST_ALIVE

/-- `findIndex` + push-or-create on `byte_time_list`: append the progress entry
to the first record with this id, or push a fresh record at the end. -/
def pushByteProgress (id : Nat) (ty : String) (p : ByteProgress) :
    List ByteTimeRecord → List ByteTimeRecord
  | [] => [⟨id, ty, [p]⟩]
  | r :: rs =>
    if r.id = id then { r with progress := r.progress ++ [p] } :: rs
    else r :: pushByteProgress id ty p rs

/-- `findIndex` + push-or-create on `current_position_list`. -/
def pushPositionProgress (id : Nat) (ty : String) (p : PositionProgress) :
    List PositionRecord → List PositionRecord
  | [] => [⟨id, ty, [p]⟩]
  | r :: rs =>
    if r.id = id then { r with progress := r.progress ++ [p] } :: rs
    else r :: pushPositionProgress id ty p rs

/-- `captureThroughputData` (part_005 lines 89-131): guarded by membership of
the event's source id in `results`; download byte-count events extend
`byte_time_list`, upload current-position events extend
`current_position_list`. -/
def captureThroughputData (ids : LogIds) (testType : String) (results : List ResultEntry)
    (byte_time_list : List ByteTimeRecord) (current_position_list : List PositionRecord)
    (e : Event) : List ByteTimeRecord × List PositionRecord :=
  if !(results.any fun result => result.sourceID == e.source_id) then
    (byte_time_list, current_position_list)
  else if (e.type == ids.URL_REQUEST_JOB_FILTERED_BYTES_READ
        || e.type == ids.URL_REQUEST_BYTES_READ)
      && e.params.isSome && testType == "download"
      && (e.params.bind Params.byte_count).isSome then
    (pushByteProgress e.source_id testType
      ⟨(e.params.bind Params.byte_count).getD 0, e.time⟩ byte_time_list,
     current_position_list)
  else if e.type == ids.UPLOAD_DATA_STREAM_READ
      && e.params.isSome && testType == "upload"
      && (e.params.bind Params.current_position).isSome then
    (byte_time_list,
     pushPositionProgress e.source_id testType
      ⟨(e.params.bind Params.current_position).getD 0, e.time⟩ current_position_list)
  else (byte_time_list, current_position_list)

/-- The in-place mutation `captureLatencyData` performs on the stream it found
or created: a send-headers event carrying `params.line` overwrites `send_time`;
a read-response-headers event overwrites `recv_time` and recomputes `rtt` when
both timestamps are present afterwards. -/
def updateLatencyStream (ids : LogIds) (e : Event) (s : LatencyStream) : LatencyStream :=
  let s1 :=
    if e.type == ids.HTTP_TRANSACTION_SEND_REQUEST_HEADERS
        && (e.params.bind Params.line).isSome then
      { s with send_time := some e.time }
    else s
  if e.type == ids.HTTP_TRANSACTION_READ_RESPONSE_HEADERS then
    let s2 := { s1 with recv_time := some e.time }
    if s2.send_time.isSome && s2.recv_time.isSome then
      { s2 with rtt := some (s2.recv_time.getD 0 - s2.send_time.getD 0) }
    else s2
  else s1

/-- Apply `f` to the first stream with the given id (the stream JS `find`
returns and the code then mutates). -/
def updateFirstLatencyStream (k : Nat) (f : LatencyStream → LatencyStream) :
    List LatencyStream → List LatencyStream
  | [] => []
  | s :: rest =>
    if s.id = k then f s :: rest else s :: updateFirstLatencyStream k f rest

/-- `captureLatencyData` (part_005 lines 133-164): find the stream for this
source id, creating `{id, send_time: null, recv_time: null, rtt: null}` when
absent, then apply the send/receive updates.  (The JS `urlList` and
`eventType` parameters are never read by the function body.) -/
def captureLatencyData (ids : LogIds) (latencyStreams : List LatencyStream) (e : Event) :
    List LatencyStream :=
  if latencyStreams.any (fun item => item.id == e.source_id) then
    updateFirstLatencyStream e.source_id (updateLatencyStream ids e) latencyStreams
  else
    latencyStreams ++ [updateLatencyStream ids e ⟨e.source_id, none, none, none⟩]

/-- The stream `captureLatencyData` operates on: the first existing stream
with the event's source id, or the freshly created
`{id, send_time: null, recv_time: null, rtt: null}` record. -/
def foundOrFresh (streams : List LatencyStream) (k : Nat) : LatencyStream :=
  (streams.find? (fun item => item.id == k)).getD ⟨k, none, none, none⟩

/-- One latency check of the main loop (the shared shape of checks #3, #4 and
#5): when the target URL list is non-empty, a send-headers event whose
`params.line` contains a target URL is recorded; a read-response-headers event
is recorded only when a stream for its source id already exists in the pool. -/
def latencyCheck (ids : LogIds) (split_target_urls : List String)
    (pool : List LatencyStream) (e : Event) : List LatencyStream :=
  match e.params with
  | none => pool
  | some p =>
    if split_target_urls.length > 0 then
      let pool1 :=
        if e.type == ids.HTTP_TRANSACTION_SEND_REQUEST_HEADERS && p.line.isSome
            && split_target_urls.any (fun url => jsIncludes (p.line.getD "") url) then
          captureLatencyData ids pool e
        else pool
      if e.type == ids.HTTP_TRANSACTION_READ_RESPONSE_HEADERS
          && pool1.any (fun stream => stream.id == e.source_id) then
        captureLatencyData ids pool1 e
      else pool1
    else pool

/-- One iteration of the main `events.forEach` loop of part_005: check #1
(opening-event recognition), check #2 (throughput collection, which sees the
`results` array as already extended by check #1 on the same event), then the
three latency checks. -/
def stepEvent (ids : LogIds) (split_urls split_unloaded_urls split_loaded_urls : List String)
    (testType : String) (st : NetState) (index : Nat) (e : Event) : NetState :=
  let results :=
    if isOpening ids split_urls e then st.results ++ [⟨e.source_id, index, e⟩]
    else st.results
  let tp :=
    if results.any (fun result => result.sourceID == e.source_id) then
      captureThroughputData ids testType results st.byte_time_list st.current_position_list e
    else (st.byte_time_list, st.current_position_list)
  let unloaded := latencyCheck ids split_unloaded_urls st.unloaded_latency e
  let loaded := latencyCheck ids split_loaded_urls st.loaded_latency e
  let test := latencyCheck ids split_urls st.test_latency e
  ⟨results, tp.1, tp.2, test, unloaded, loaded⟩

/-- The main loop, threading the state over the events with their indices. -/
def runEvents (ids : LogIds) (split_urls split_unloaded_urls split_loaded_urls : List String)
    (testType : String) : NetState → Nat → List Event → NetState
  | st, _, [] => st
  | st, n, e :: rest =>
    runEvents ids split_urls split_unloaded_urls split_loaded_urls testType
      (stepEvent ids split_urls split_unloaded_urls split_loaded_urls testType st n e)
      (n + 1) rest

/-- The whole analysis pass of part_005 over a parsed event list, starting
from empty accumulators. -/
def runNetlog (ids : LogIds) (split_urls split_unloaded_urls split_loaded_urls : List String)
    (testType : String) (events : List Event) : NetState :=
  runEvents ids split_urls split_unloaded_urls split_loaded_urls testType
    ⟨[], [], [], [], [], []⟩ 0 events

/-- Source ids of the events check #1 recognizes as opening events, in event
order. -/
def openingIds (ids : LogIds) (split_urls : List String) (events : List Event) : List Nat :=
  (events.filter (isOpening ids split_urls)).map Event.source_id

/-- Download-side qualifying condition of check #2 (byte-count read events of
a download test). -/
def qualifiesByteEvent (ids : LogIds) (testType : String) (e : Event) : Bool :=
  (e.type == ids.URL_REQUEST_JOB_FILTERED_BYTES_READ || e.type == ids.URL_REQUEST_BYTES_READ)
  && e.params.isSome && testType == "download" && (e.params.bind Params.byte_count).isSome

/-- Upload-side qualifying condition of check #2 (current-position events of
an upload test). -/
def qualifiesPositionEvent (ids : LogIds) (testType : String) (e : Event) : Bool :=
  e.type == ids.UPLOAD_DATA_STREAM_READ
  && e.params.isSome && testType == "upload" && (e.params.bind Params.current_position).isSome

/-- Specification-side byte progress for source id `k`: walk the events in
arrival order carrying a flag saying whether `k` has been recognized by an
opening event yet (the same event is allowed to do the recognizing, as check
\#1 runs before check #2), and emit one `{bytecount, time}` entry per
qualifying event of `k` seen while recognized. -/
def specByteProgress (ids : LogIds) (split_urls : List String) (testType : String)
    (k : Nat) : List Event → Bool → List ByteProgress
  | [], _ => []
  | e :: rest, recog =>
    let recog' := recog || (isOpening ids split_urls e && e.source_id == k)
    if recog' && qualifiesByteEvent ids testType e && e.source_id == k then
      ⟨(e.params.bind Params.byte_count).getD 0, e.time⟩ ::
        specByteProgress ids split_urls testType k rest recog'
    else specByteProgress ids split_urls testType k rest recog'

/-- Specification-side current-position progress for source id `k`. -/
def specPositionProgress (ids : LogIds) (split_urls : List String) (testType : String)
    (k : Nat) : List Event → Bool → List PositionProgress
  | [], _ => []
  | e :: rest, recog =>
    let recog' := recog || (isOpening ids split_urls e && e.source_id == k)
    if recog' && qualifiesPositionEvent ids testType e && e.source_id == k then
      ⟨(e.params.bind Params.current_position).getD 0, e.time⟩ ::
        specPositionProgress ids split_urls testType k rest recog'
    else specPositionProgress ids split_urls testType k rest recog'

/-- Progress list of the `byte_time_list` record with the given id (empty when
no record exists). -/
def byteProgressOf (l : List ByteTimeRecord) (k : Nat) : List ByteProgress :=
  match l.find? (fun r => r.id == k) with
  | some r => r.progress
  | none => []

/-- Progress list of the `current_position_list` record with the given id. -/
def positionProgressOf (l : List PositionRecord) (k : Nat) : List PositionProgress :=
  match l.find? (fun r => r.id == k) with
  | some r => r.progress
  | none => []

/-- The `{count_rtt, mean_rtt, median_rtt}` summary record. -/
structure LatencyStats where
  count_rtt : Nat
  mean_rtt : ℚ
  median_rtt : ℚ
deriving DecidableEq, Repr

/-- JS `Math.round`: nearest integer, halves toward positive infinity (the
floor of `q + 1/2`). -/
def jsRound (q : ℚ) : ℤ := Rat.floor (q + (1 : ℚ) / 2)

/-- `Math.round(x * 100) / 100`: round to two decimal places. -/
def jsRound2 (q : ℚ) : ℚ := (jsRound (q * 100) : ℚ) / 100

/-- The filter predicate of `calculateLatencyStatistics`:
`stream.rtt !== null && stream.rtt >= 0`. -/
def validRttPred (stream : LatencyStream) : Bool :=
  match stream.rtt with
  | some r => decide (0 ≤ r)
  | none => false

/-- `validRtts`: the rtt values of the qualifying streams (`rtt` is non-null
on every filtered stream, so the JS `.map(stream => stream.rtt)` yields plain
numbers). -/
def validRtts (latencyStreams : List LatencyStream) : List Int :=
  (latencyStreams.filter validRttPred).map (fun stream => stream.rtt.getD 0)

/-- Stable insertion step of the ascending sort. -/
def insertSorted (x : Int) : List Int → List Int
  | [] => [x]
  | y :: ys => if x ≤ y then x :: y :: ys else y :: insertSorted x ys

/-- `[...validRtts].sort((a, b) => a - b)`: ascending numeric sort. -/
def sortAscending (l : List Int) : List Int := l.foldr insertSorted []

/-- `calculateLatencyStatistics` (part_005 lines 166-202): zero qualifying
streams yield the all-zero record; otherwise count, two-decimal rounded mean,
and two-decimal rounded even/odd sorted-middle median of the valid rtts. -/
def calculateLatencyStatistics (latencyStreams : List LatencyStream) : LatencyStats :=
  let vr := validRtts latencyStreams
  if vr.length = 0 then ⟨0, 0, 0⟩
  else
    let count_rtt := vr.length
    let sum : Int := vr.foldl (fun acc rtt => acc + rtt) 0
    let mean_rtt : ℚ := (sum : ℚ) / (count_rtt : ℚ)
    let sortedRtts := sortAscending vr
    let median_rtt : ℚ :=
      if sortedRtts.length % 2 = 0 then
        let mid1 := sortedRtts.getD (sortedRtts.length / 2 - 1) 0
        let mid2 := sortedRtts.getD (sortedRtts.length / 2) 0
        ((mid1 : ℚ) + (mid2 : ℚ)) / 2
      else (sortedRtts.getD (sortedRtts.length / 2) 0 : ℚ)
    ⟨count_rtt, jsRound2 mean_rtt, jsRound2 median_rtt⟩

end FilterNetlog

namespace FilterNetlogData

/-!
Embedding of `getUrlTypeAndForm` from
`src/ookla/data-extraction/filter-netlog-data.js` (lines 49-83).
-/

/-- URL-list file shape read by `filter-netlog-data.js`: the legacy
`load`/`unload` keys plus the optional newer `idle_latency`/`loaded_latency`
keys (absent on old files, hence `Option`). -/
structure UrlJsonFull where
  download : List String
  upload : List String
  load : List String
  unload : List String
  idle_latency : Option (List String)
  loaded_latency : Option (List String)
deriving DecidableEq, Repr

/-- Result of `getUrlTypeAndForm`.  When `count = 1` the JS object carries no
`urltype2`/`form2` keys; that case is represented by `""`/`[]`. -/
structure UrlTypeAndForm where
  count : Nat
  urltype : String
  form : List String
  urltype2 : String
  form2 : List String
deriving DecidableEq, Repr

/-- `getUrlTypeAndForm`: chooses the latency list (idle_latency preferred over
load over unload) and the payload direction (download preferred over upload),
then packages one or two url types. -/
def getUrlTypeAndForm (urlJSON : UrlJsonFull) : UrlTypeAndForm :=
  let idlePresent : Bool :=
    match urlJSON.idle_latency with
    | some l => decide (l.length > 0)
    | none => false
  let latency : String × List String :=
    if idlePresent then ("unload", urlJSON.idle_latency.getD [])
    else if urlJSON.load.length > 0 then ("load", urlJSON.load)
    else if urlJSON.unload.length > 0 then ("unload", urlJSON.unload)
    else ("", [])
  let payload : String × List String :=
    if urlJSON.download.length > 0 then ("download", urlJSON.download)
    else if urlJSON.upload.length > 0 then ("upload", urlJSON.upload)
    else ("", [])
  if payload.1 ≠ "" then
    if latency.1 ≠ "" then ⟨2, payload.1, payload.2, latency.1, latency.2⟩
    else ⟨1, payload.1, payload.2, "", []⟩
  else ⟨1, latency.1, latency.2, "", []⟩

end FilterNetlogData

namespace FilterSockets

/-!
Embedding of the pure correlation cores of `processHttpStreamJobIds` and
`processSocketIds` from `src/ookla/netlog-filter/filter-sockets.js` (the same
bodies appear in `part_005` lines 386-494).  File reading/writing around the
cores is environment interaction; the functions below take the parsed events,
the recognized stream-id list and the stage-1 pairs as arguments and return
the lists the JS code writes out.
-/

/-- Stage 1: for every `HTTP_STREAM_REQUEST_BOUND_TO_JOB` event carrying
`params.source_dependency` whose source id is in the recognized stream-id
list, emit the pair `[source.id, source_dependency.id]`. -/
def processHttpStreamJobIds (ids : LogIds) (events : List Event) (list : List Nat) :
    List (Nat × Nat) :=
  events.foldl (fun http_stream_job_ids e =>
    if e.type == ids.HTTP_STREAM_REQUEST_BOUND_TO_JOB
        && (e.params.bind Params.source_dependency).isSome
        && list.contains e.source_id then
      http_stream_job_ids ++ [(e.source_id, (e.params.bind Params.source_dependency).getD 0)]
    else http_stream_job_ids) []

/-- Stage 2: when the stage-1 pair list is non-empty, for every
`SOCKET_POOL_BOUND_TO_SOCKET` event carrying `params.source_dependency` whose
source id occurs among the stage-1 dependency ids (first occurrence, JS
`indexOf`), emit the triple `[httpSourceId, dependencyJobId, socketId]`; with
zero stage-1 pairs the loop is skipped and the empty list is emitted. -/
def processSocketIds (ids : LogIds) (events : List Event)
    (httpstreamJobs : List (Nat × Nat)) : List (Nat × Nat × Nat) :=
  if httpstreamJobs.length ≠ 0 then
    let httpstreamList := httpstreamJobs.map Prod.snd
    let httpsourceID := httpstreamJobs.map Prod.fst
    events.foldl (fun socketIds e =>
      if e.params.isSome && (e.params.bind Params.source_dependency).isSome
          && e.type == ids.SOCKET_POOL_BOUND_TO_SOCKET then
        let eventIndex := httpstreamList.indexOf e.source_id
        if eventIndex < httpstreamList.length then
          socketIds ++ [(httpsourceID.getD eventIndex 0, httpstreamList.getD eventIndex 0,
            (e.params.bind Params.source_dependency).getD 0)]
        else socketIds
      else socketIds) []
  else []

end FilterSockets

namespace FileUtils

/-!
Embedding of `fixAndParseJSON` from `src/ookla/data-extraction/file-utils.js`
(lines 43-113; `src/ookla/data-extraction/url_filter.js` lines 28-99 contain
the identical function).  `JSON.parse` is the platform parser; it is modelled
below for the JSON value grammar the capture files use (objects, arrays,
strings without escapes, integers, booleans, null, whitespace), strict about
trailing garbage, as `JSON.parse` is.
-/

/-- JSON value tree. -/
inductive Json where
  | null : Json
  | bool : Bool → Json
  | num : Int → Json
  | str : String → Json
  | arr : List Json → Json
  | obj : List (String × Json) → Json

/-- JSON whitespace. -/
def isWs (c : Char) : Bool := c == ' ' || c == '\n' || c == '\t' || c == '\r'

/-- Drop leading whitespace. -/
def skipWs (cs : List Char) : List Char := cs.dropWhile isWs

/-- Parse a string literal body (after the opening quote), up to and including
the closing quote.  The capture files contain no escape sequences. -/
def parseStringLit (cs : List Char) : Option (String × List Char) :=
  let content := cs.takeWhile (fun c => c != '"')
  match cs.dropWhile (fun c => c != '"') with
  | '"' :: r => some (String.mk content, r)
  | _ => none

/-- Parse a non-empty digit run as a natural number. -/
def parseDigits (cs : List Char) : Option (Nat × List Char) :=
  let ds := cs.takeWhile Char.isDigit
  if ds.isEmpty then none
  else some (ds.foldl (fun n c => n * 10 + (c.toNat - '0'.toNat)) 0,
    cs.dropWhile Char.isDigit)

/-- Parse an optionally negated integer literal. -/
def parseNumber (cs : List Char) : Option (Int × List Char) :=
  match cs with
  | '-' :: rest => (parseDigits rest).map (fun p => (-(p.1 : Int), p.2))
  | _ => (parseDigits cs).map (fun p => ((p.1 : Int), p.2))

mutual

/-- Parse one JSON value, fuel-bounded. -/
def parseValue : Nat → List Char → Option (Json × List Char)
  | 0, _ => none
  | fuel + 1, cs =>
    match skipWs cs with
    | [] => none
    | c :: rest =>
      if c = '\x7b' then parseObjectBody fuel (skipWs rest)
      else if c = '[' then parseArrayBody fuel (skipWs rest)
      else if c = '"' then (parseStringLit rest).map (fun p => (Json.str p.1, p.2))
      else if c = 't' then
        match rest with
        | 'r' :: 'u' :: 'e' :: r => some (Json.bool true, r)
        | _ => none
      else if c = 'f' then
        match rest with
        | 'a' :: 'l' :: 's' :: 'e' :: r => some (Json.bool false, r)
        | _ => none
      else if c = 'n' then
        match rest with
        | 'u' :: 'l' :: 'l' :: r => some (Json.null, r)
        | _ => none
      else (parseNumber (c :: rest)).map (fun p => (Json.num p.1, p.2))

/-- Parse an object body after the opening brace (leading whitespace already
skipped). -/
def parseObjectBody : Nat → List Char → Option (Json × List Char)
  | 0, _ => none
  | fuel + 1, cs =>
    match cs with
    | '\x7d' :: r => some (Json.obj [], r)
    | _ => parseMembers fuel cs []

/-- Parse the members of a non-empty object. -/
def parseMembers : Nat → List Char → List (String × Json) → Option (Json × List Char)
  | 0, _, _ => none
  | fuel + 1, cs, acc =>
    match skipWs cs with
    | '"' :: rest =>
      match parseStringLit rest with
      | none => none
      | some (k, r1) =>
        match skipWs r1 with
        | ':' :: r2 =>
          match parseValue fuel r2 with
          | none => none
          | some (v, r3) =>
            match skipWs r3 with
            | ',' :: r4 => parseMembers fuel r4 (acc ++ [(k, v)])
            | '\x7d' :: r4 => some (Json.obj (acc ++ [(k, v)]), r4)
            | _ => none
        | _ => none
    | _ => none

/-- Parse an array body after the opening bracket (leading whitespace already
skipped). -/
def parseArrayBody : Nat → List Char → Option (Json × List Char)
  | 0, _ => none
  | fuel + 1, cs =>
    match cs with
    | ']' :: r => some (Json.arr [], r)
    | _ => parseElements fuel cs []

/-- Parse the elements of a non-empty array. -/
def parseElements : Nat → List Char → List Json → Option (Json × List Char)
  | 0, _, _ => none
  | fuel + 1, cs, acc =>
    match parseValue fuel cs with
    | none => none
    | some (v, r) =>
      match skipWs r with
      | ',' :: r2 => parseElements fuel r2 (acc ++ [v])
      | ']' :: r2 => some (Json.arr (acc ++ [v]), r2)
      | _ => none

end

/-- `JSON.parse`: parse one value and reject trailing garbage; `none` models a
thrown `SyntaxError`. -/
def jsonParse (s : String) : Option Json :=
  match parseValue (4 * s.length + 4) s.data with
  | some (v, rest) => if (skipWs rest).isEmpty then some v else none
  | none => none

/-- JS `String.prototype.trim`. -/
def jsTrim (s : String) : String :=
  String.mk (((s.data.dropWhile isWs).reverse.dropWhile isWs).reverse)

/-- JS `String.prototype.endsWith(',')`. -/
def jsEndsWithComma (s : String) : Bool := s.data.getLast? == some ','

/-- JS truthiness of a parsed JSON value (`if (parsedJson)` before the
write-back). -/
def jsTruthy : Json → Bool
  | Json.null => false
  | Json.bool b => b
  | Json.num n => n != 0
  | Json.str s => s != ""
  | Json.arr _ => true
  | Json.obj _ => true

/-- `String.prototype.lastIndexOf` for one character. -/
def lastIndexOfChar (c : Char) (cs : List Char) : Option Nat :=
  (cs.reverse.findIdx? (fun x => x == c)).map (fun i => cs.length - 1 - i)

/-- The first repair attempt's `fixedString`: strip the trailing comma when one
is present (`slice(0, -1)`), then append the closing brackets. -/
def repair1 (s : String) : String :=
  if jsEndsWithComma s then String.mk s.data.dropLast ++ "]\x7d"
  else s ++ "]\x7d"

/-- The fallback repair's `fixedString`: the repair not tried first — append
brackets without stripping when the string ends in a comma, otherwise truncate
after the last closing brace and append brackets (`none` when no closing brace
exists, the `return null` path). -/
def repair2 (s : String) : Option String :=
  if jsEndsWithComma s then some (s ++ "]\x7d")
  else
    match lastIndexOfChar '\x7d' s.data with
    | some i => some (String.mk (s.data.take (i + 1)) ++ "]\x7d")
    | none => none

/-- `fixAndParseJSON`: strict parse first; on failure strip a trailing comma
if present and append the closing brackets; on a second failure retry with the
other repair (append brackets without stripping, or truncate after the last
closing brace); `null` when everything fails.  The second component records
the single `fs.writeFileSync` the function may perform: the repaired string is
written back only after its `JSON.parse` succeeded (and the parsed value is
truthy). -/
def fixAndParseJSON (jsonString : String) : Option Json × Option String :=
  let s := jsTrim jsonString
  match jsonParse s with
  | some v => (some v, none)
  | none =>
    match jsonParse (repair1 s) with
    | some v => (some v, if jsTruthy v then some (repair1 s) else none)
    | none =>
      match repair2 s with
      | none => (none, none)
      | some fixedString2 =>
        match jsonParse fixedString2 with
        | some v => (some v, if jsTruthy v then some fixedString2 else none)
        | none => (none, none)

/-- Field lookup on a parsed JSON object (`result.events` access). -/
def Json.getField : Json → String → Option Json
  | Json.obj kvs, k => (kvs.find? (fun kv => kv.1 == k)).map Prod.snd
  | _, _ => none

/-- The P5 capture string: a capture truncated right after a dangling comma,
`{"constants":{},"events":[{"a":1},{"b":2},` (braces written with character
escapes). -/
def p5Capture : String :=
  "\x7b\"constants\":\x7b\x7d,\"events\":[\x7b\"a\":1\x7d,\x7b\"b\":2\x7d,"

/-- The value the repaired P5 capture must parse to. -/
def p5Expected : Json :=
  Json.obj [("constants", Json.obj []),
            ("events", Json.arr [Json.obj [("a", Json.num 1)], Json.obj [("b", Json.num 2)]])]

end FileUtils

/-!
Concrete instances used by the example-based theorems and witnesses.
-/

/-- A resolved symbol table with pairwise-distinct codes (values as observed in
one capture generation; only distinctness and identity matter). -/
def demoIds : LogIds := ⟨2, 326, 104, 339, 176, 181, 111, 114⟩

/-- A `params` object carrying only a URL. -/
def urlParams (u : String) : Params := ⟨some u, none, none, none, none, none, false⟩

/-- A `params` object carrying only a request line. -/
def lineParams (l : String) : Params := ⟨none, some l, none, none, none, none, false⟩

/-- A `params` object carrying only a byte count. -/
def byteCountParams (n : Int) : Params := ⟨none, none, some n, none, none, none, false⟩

/-- A `params` object carrying only a source dependency. -/
def depParams (d : Nat) : Params := ⟨none, none, none, none, some d, none, false⟩

/-- P6 synthetic events: `HTTP_STREAM_REQUEST_BOUND_TO_JOB(source=5, dep=7)`
then `SOCKET_POOL_BOUND_TO_SOCKET(source=7, dep=9)`. -/
def p6Events : List Event :=
  [⟨demoIds.HTTP_STREAM_REQUEST_BOUND_TO_JOB, 10, 5, some (depParams 7)⟩,
   ⟨demoIds.SOCKET_POOL_BOUND_TO_SOCKET, 11, 7, some (depParams 9)⟩]

/-- A read-response-headers event at time 5 on source id 0. -/
def c6RecvEvent : Event :=
  ⟨demoIds.HTTP_TRANSACTION_READ_RESPONSE_HEADERS, 5, 0, some Params.empty⟩

/-- A send-request-headers event at time 1 on source id 0, carrying a request
line. -/
def c6SendEvent : Event :=
  ⟨demoIds.HTTP_TRANSACTION_SEND_REQUEST_HEADERS, 1, 0,
   some (lineParams "GET /hello?nocache=1 HTTP/1.1")⟩

/-- The download split-URL list used by the C3 witness run. -/
def c3Urls : List String := ["8080/download?nocache=abc"]

/-- Two events: an opening `REQUEST_ALIVE` for source id 42 on a download URL,
then a filtered-bytes-read event for the same source. -/
def c3Events : List Event :=
  [⟨demoIds.REQUEST_ALIVE, 100, 42, some (urlParams "http://s:8080/download?nocache=abc")⟩,
   ⟨demoIds.URL_REQUEST_JOB_FILTERED_BYTES_READ, 101, 42, some (byteCountParams 1000)⟩]

/-- Latency streams whose rtts are 10, 20 and 30. -/
def streamsRtt3 : List FilterNetlog.LatencyStream :=
  [⟨1, some 0, some 10, some 10⟩, ⟨2, some 0, some 20, some 20⟩, ⟨3, some 0, some 30, some 30⟩]

/-- Latency streams whose rtts are 10, 20, 30 and 40. -/
def streamsRtt4 : List FilterNetlog.LatencyStream :=
  streamsRtt3 ++ [⟨4, some 0, some 40, some 40⟩]

/-- Latency streams with rtts 10, -5, 20, 30 and one never-paired stream. -/
def streamsRttMixed : List FilterNetlog.LatencyStream :=
  [⟨1, some 0, some 10, some 10⟩, ⟨2, some 5, some 0, some (-5)⟩,
   ⟨3, some 0, some 20, some 20⟩, ⟨4, some 0, some 30, some 30⟩, ⟨5, some 0, none, none⟩]

/-!
Helper lemmas.
-/

theorem classifyHello_cases (events : List Event) (f : Int) (acc : List String × List String)
    (u : String) :
    UrlFilter.classifyHello events f acc u = (acc.1, acc.2 ++ [u]) ∨
    UrlFilter.classifyHello events f acc u = (acc.1 ++ [u], acc.2) := by
  simp only [UrlFilter.classifyHello]
  by_cases h : (UrlFilter.urlTimings events u).length = 0
  · simp [h]
  · simp only [h, if_false]
    by_cases h2 : (((UrlFilter.urlTimings events u).foldl (fun a b => a + b) 0 : Int) : ℚ) /
        ((UrlFilter.urlTimings events u).length : ℚ) < (f : ℚ)
    · simp [h2]
    · simp [h2]

theorem classifyHello_of_timings_nil (events : List Event) (f : Int)
    (acc : List String × List String) (u : String)
    (h : UrlFilter.urlTimings events u = []) :
    UrlFilter.classifyHello events f acc u = (acc.1, acc.2 ++ [u]) := by
  simp [UrlFilter.classifyHello, h]

theorem classifyHello_fst_mono (events : List Event) (f : Int) :
    ∀ (urls : List String) (a b : List String) (x : String), x ∈ a →
      x ∈ (urls.foldl (UrlFilter.classifyHello events f) (a, b)).1 := by
  intro urls
  induction urls with
  | nil => intro a b x hx; simpa using hx
  | cons u rest ih =>
    intro a b x hx
    rw [List.foldl_cons]
    rcases classifyHello_cases events f (a, b) u with h | h <;> rw [h]
    · exact ih a (b ++ [u]) x hx
    · exact ih (a ++ [u]) b x (List.mem_append_left _ hx)

theorem classifyHello_snd_mono (events : List Event) (f : Int) :
    ∀ (urls : List String) (a b : List String) (x : String), x ∈ b →
      x ∈ (urls.foldl (UrlFilter.classifyHello events f) (a, b)).2 := by
  intro urls
  induction urls with
  | nil => intro a b x hx; simpa using hx
  | cons u rest ih =>
    intro a b x hx
    rw [List.foldl_cons]
    rcases classifyHello_cases events f (a, b) u with h | h <;> rw [h]
    · exact ih a (b ++ [u]) x (List.mem_append_left _ hx)
    · exact ih (a ++ [u]) b x hx

theorem classifyHello_total (events : List Event) (f : Int) :
    ∀ (urls : List String) (a b : List String) (x : String), x ∈ urls →
      x ∈ (urls.foldl (UrlFilter.classifyHello events f) (a, b)).1 ∨
      x ∈ (urls.foldl (UrlFilter.classifyHello events f) (a, b)).2 := by
  intro urls
  induction urls with
  | nil => intro a b x hx; simp at hx
  | cons u rest ih =>
    intro a b x hx
    rcases List.mem_cons.mp hx with hx | hx
    · subst hx
      rw [List.foldl_cons]
      rcases classifyHello_cases events f (a, b) x with h | h <;> rw [h]
      · exact Or.inr (classifyHello_snd_mono events f rest a (b ++ [x]) x
          (List.mem_append_right _ (List.mem_singleton_self x)))
      · exact Or.inl (classifyHello_fst_mono events f rest (a ++ [x]) b x
          (List.mem_append_right _ (List.mem_singleton_self x)))
    · exact ih _ _ x hx

theorem classifyHello_fallback (events : List Event) (f : Int) :
    ∀ (urls : List String) (a b : List String) (x : String), x ∈ urls →
      UrlFilter.urlTimings events x = [] →
      x ∈ (urls.foldl (UrlFilter.classifyHello events f) (a, b)).2 := by
  intro urls
  induction urls with
  | nil => intro a b x hx; simp at hx
  | cons u rest ih =>
    intro a b x hx ht
    rcases List.mem_cons.mp hx with hx | hx
    · subst hx
      rw [List.foldl_cons, classifyHello_of_timings_nil events f (a, b) x ht]
      exact classifyHello_snd_mono events f rest a (b ++ [x]) x
        (List.mem_append_right _ (List.mem_singleton_self x))
    · exact ih _ _ x hx ht

/-!
Claim theorems.
-/

/-- C1 counterexample: in the P7 scenario (download payload ids 100 and 105, no
upload URLs, hello ids 50, 102, 110), `separateHelloUrlsByTiming` of
`filter-urls.js` does NOT place the id-110 hello URL in any loaded bucket, so
the claimed loaded set `{102, 110}` is wrong on the code. -/
theorem c1_counterexample :
    "url110" ∉ (FilterUrls.separateHelloUrlsByTiming FilterUrls.p7Input).download_load ++
      (FilterUrls.separateHelloUrlsByTiming FilterUrls.p7Input).upload_load := by
  decide

/-- C1 (amended): in the P7 scenario the classifier yields idle (download
unloaded) = [id 50's URL], loaded-during-download = [id 102's URL], and the
id-110 hello URL (after the last download id, with no upload boundary) is
assigned to no bucket at all — it is dropped, not placed in the loaded
bucket. -/
theorem c1_hello_boundary_classification :
    FilterUrls.separateHelloUrlsByTiming FilterUrls.p7Input =
      { download_unload := ["url50"], download_load := ["url102"],
        upload_unload := [], upload_load := [] } ∧
    "url110" ∉ (FilterUrls.separateHelloUrlsByTiming FilterUrls.p7Input).download_unload ∧
    "url110" ∉ (FilterUrls.separateHelloUrlsByTiming FilterUrls.p7Input).download_load ∧
    "url110" ∉ (FilterUrls.separateHelloUrlsByTiming FilterUrls.p7Input).upload_unload ∧
    "url110" ∉ (FilterUrls.separateHelloUrlsByTiming FilterUrls.p7Input).upload_load := by
  refine ⟨by decide, by decide, by decide, by decide, by decide⟩

/-- C2 counterexample: with no payload URLs at all, the id-window classifier of
`filter-urls.js` classifies its hello URL into NO bucket — in particular not
into the idle (unloaded) bucket as the claim requires — so the totality claim
fails on that classifier. -/
theorem c2_counterexample :
    FilterUrls.separateHelloUrlsByTiming FilterUrls.noPayloadInput =
      { download_unload := [], download_load := [], upload_unload := [], upload_load := [] } ∧
    "hello1" ∉ (FilterUrls.separateHelloUrlsByTiming FilterUrls.noPayloadInput).download_unload := by
  refine ⟨by decide, by decide⟩

/-- C2 (amended): the totality and fallback properties hold for the time-based
classifier of `url_filter.js`: every hello URL is assigned to idle or loaded
latency; with no download/upload events at all every hello URL goes to idle
latency; and when payload events exist, a hello URL with no observed timing
falls back to loaded latency.  (The id-window classifier of `filter-urls.js`
does not satisfy totality, per the counterexample.) -/
theorem c2_hello_classifier_totality (events : List Event) (helloUrls : List String) :
    (∀ url ∈ helloUrls,
      url ∈ (UrlFilter.separateHelloUrlsByTiming events helloUrls).1 ∨
      url ∈ (UrlFilter.separateHelloUrlsByTiming events helloUrls).2) ∧
    (UrlFilter.downloadTimes events = [] →
      UrlFilter.separateHelloUrlsByTiming events helloUrls = (helloUrls, [])) ∧
    (UrlFilter.downloadTimes events ≠ [] →
      ∀ url ∈ helloUrls, UrlFilter.urlTimings events url = [] →
        url ∈ (UrlFilter.separateHelloUrlsByTiming events helloUrls).2) := by
  unfold UrlFilter.separateHelloUrlsByTiming
  refine ⟨?_, ?_, ?_⟩
  · intro url hurl
    split
    · exact Or.inl hurl
    · exact classifyHello_total events _ helloUrls [] [] url hurl
  · intro h
    rw [h]
    simp
  · intro h url hurl ht
    rw [if_neg (by simpa [List.length_eq_zero] using h)]
    exact classifyHello_fallback events _ helloUrls [] [] url hurl ht

/-- C2 witness: instantiating the amended claim on an empty capture with one
hello URL: everything is idle latency, and the hello URL is assigned. -/
theorem c2_witness :
    UrlFilter.separateHelloUrlsByTiming [] ["h"] = (["h"], []) ∧
    ("h" ∈ (UrlFilter.separateHelloUrlsByTiming [] ["h"]).1 ∨
     "h" ∈ (UrlFilter.separateHelloUrlsByTiming [] ["h"]).2) := by
  have h := c2_hello_classifier_totality [] ["h"]
  exact ⟨h.2.1 rfl, h.1 "h" (by decide)⟩

theorem any_and_const {α : Type} (l : List α) (p : α → Bool) (c : Bool) :
    (l.any fun x => p x && c) = (l.any p && c) := by
  induction l with
  | nil => simp
  | cons h t ih =>
    simp only [List.any_cons, ih]
    cases c <;> cases p h <;> simp

/-- C4: the opening-event recognition condition as written in the source, with
the type test nested inside the `some` callback, recognizes exactly the same
events as the spec-recommended conjunction of two independent predicates (URL
match ANDed with type match), for every URL list and every event. -/
theorem c4_opening_predicate_equivalence (ids : LogIds) (split_urls : List String)
    (e : Event) :
    FilterNetlog.isOpening ids split_urls e =
      FilterNetlog.isOpeningTwoPredicate ids split_urls e := by
  unfold FilterNetlog.isOpening FilterNetlog.isOpeningTwoPredicate
  rcases e with ⟨ty, tm, sid, params⟩
  cases params with
  | none => rfl
  | some p =>
    rcases p with ⟨purl, pline, pbc, pcp, psd, pkey, pcr⟩
    cases purl with
    | none => rfl
    | some u => exact any_and_const split_urls _ _

/-- C7: socket-chain resolution.  On the P6 synthetic events (a
`HTTP_STREAM_REQUEST_BOUND_TO_JOB` event with source 5 and dependency 7, source
5 recognized, then a `SOCKET_POOL_BOUND_TO_SOCKET` event with source 7 and
dependency 9), stage 1 emits exactly the pair `(5, 7)` and stage 2 on stage 1's
output emits exactly the triple `(5, 7, 9)`; and stage 2 applied to an empty
stage-1 pair list always yields the empty result. -/
theorem c7_socket_chain :
    FilterSockets.processHttpStreamJobIds demoIds p6Events [5] = [(5, 7)] ∧
    FilterSockets.processSocketIds demoIds p6Events
      (FilterSockets.processHttpStreamJobIds demoIds p6Events [5]) = [(5, 7, 9)] ∧
    ∀ (ids : LogIds) (events : List Event),
      FilterSockets.processSocketIds ids events [] = [] := by
  refine ⟨by decide, by decide, ?_⟩
  intro ids events
  simp [FilterSockets.processSocketIds]

/-- C8: capture-repair round-trip.  The P5 capture string (valid JSON except a
dangling trailing comma with the closing `]}` missing) fails strict parsing;
the repair strips the comma, appends the closing brackets, parses successfully,
and the parsed object's `events` field is exactly the two-element array
`[{"a":1},{"b":2}]`. -/
theorem c8_repair_round_trip :
    FileUtils.jsonParse FileUtils.p5Capture = none ∧
    (FileUtils.fixAndParseJSON FileUtils.p5Capture).1 = some FileUtils.p5Expected ∧
    FileUtils.p5Expected.getField "events" =
      some (FileUtils.Json.arr [FileUtils.Json.obj [("a", FileUtils.Json.num 1)],
        FileUtils.Json.obj [("b", FileUtils.Json.num 2)]]) := by
  refine ⟨rfl, rfl, rfl⟩

/-- C9: repair atomicity of `fixAndParseJSON`.  A repaired string is recorded
as written back to the capture file only when `JSON.parse` of exactly that
string has already succeeded (and the function returns its parsed value), and
whenever every parse and repair attempt fails the function returns `null` with
no write performed. -/
theorem c9_repair_atomicity (s : String) :
    ((FileUtils.fixAndParseJSON s).1 = none → (FileUtils.fixAndParseJSON s).2 = none) ∧
    (∀ w, (FileUtils.fixAndParseJSON s).2 = some w →
      FileUtils.jsonParse w = (FileUtils.fixAndParseJSON s).1 ∧
      (FileUtils.fixAndParseJSON s).1 ≠ none) := by
  unfold FileUtils.fixAndParseJSON
  rcases h1 : FileUtils.jsonParse (FileUtils.jsTrim s) with _ | v
  · simp only [h1]
    rcases h2 : FileUtils.jsonParse (FileUtils.repair1 (FileUtils.jsTrim s)) with _ | v
    · simp only [h2]
      rcases h3 : FileUtils.repair2 (FileUtils.jsTrim s) with _ | r2
      · simp only [h3]
        simp
      · simp only [h3]
        rcases h4 : FileUtils.jsonParse r2 with _ | v
        · simp only [h4]
          simp
        · simp only [h4]
          constructor
          · intro h; simp at h
          · intro w hw
            by_cases htr : FileUtils.jsTruthy v = true
            · simp only [htr, if_true] at hw
              obtain rfl : r2 = w := by simpa using hw
              refine ⟨by simpa using h4, by simp⟩
            · simp only [htr, if_false] at hw
              simp at hw
    · simp only [h2]
      constructor
      · intro h; simp at h
      · intro w hw
        by_cases htr : FileUtils.jsTruthy v = true
        · simp only [htr, if_true] at hw
          obtain rfl : FileUtils.repair1 (FileUtils.jsTrim s) = w := by simpa using hw
          refine ⟨by simpa using h2, by simp⟩
        · simp only [htr, if_false] at hw
          simp at hw
  · simp only [h1]
    simp

/-- C9 witness: on the P5 capture the recorded write is the comma-stripped
bracket-closed string, whose parse equals the returned value; and on an
irreparable string no write is recorded. -/
theorem c9_witness :
    FileUtils.jsonParse
        "\x7b\"constants\":\x7b\x7d,\"events\":[\x7b\"a\":1\x7d,\x7b\"b\":2\x7d]\x7d" =
      (FileUtils.fixAndParseJSON FileUtils.p5Capture).1 ∧
    (FileUtils.fixAndParseJSON "xyz").2 = none := by
  constructor
  · exact ((c9_repair_atomicity FileUtils.p5Capture).2 _ rfl).1
  · exact (c9_repair_atomicity "xyz").1 rfl

theorem validRtts_filter (l : List FilterNetlog.LatencyStream) :
    FilterNetlog.validRtts (l.filter FilterNetlog.validRttPred) =
      FilterNetlog.validRtts l := by
  simp [FilterNetlog.validRtts, List.filter_filter]

theorem validRtts_length (l : List FilterNetlog.LatencyStream) :
    (FilterNetlog.validRtts l).length = (l.filter FilterNetlog.validRttPred).length := by
  simp [FilterNetlog.validRtts]

theorem ratFloor_eq_floor (q : ℚ) : Rat.floor q = ⌊q⌋ := by
  rw [Rat.floor_def', Rat.floor_def]

theorem jsRound_intCast (n : ℤ) : FilterNetlog.jsRound (n : ℚ) = n := by
  unfold FilterNetlog.jsRound
  rw [ratFloor_eq_floor, Int.floor_int_add]
  have h12 : ⌊(1 : ℚ) / 2⌋ = 0 := by
    rw [Int.floor_eq_iff]
    norm_num
  rw [h12, add_zero]

theorem jsRound2_intCast (n : ℤ) : FilterNetlog.jsRound2 (n : ℚ) = (n : ℚ) := by
  unfold FilterNetlog.jsRound2
  have h : (n : ℚ) * 100 = ((n * 100 : ℤ) : ℚ) := by push_cast; ring
  rw [h, jsRound_intCast]
  push_cast
  field_simp

theorem jsRound2_twenty : FilterNetlog.jsRound2 20 = 20 := by
  have h := jsRound2_intCast 20
  norm_num at h
  exact h

theorem jsRound2_twentyfive : FilterNetlog.jsRound2 25 = 25 := by
  have h := jsRound2_intCast 25
  norm_num at h
  exact h

theorem stats3_eval : FilterNetlog.calculateLatencyStatistics streamsRtt3 = ⟨3, 20, 20⟩ := by
  have hv : FilterNetlog.validRtts streamsRtt3 = [10, 20, 30] := by decide
  have hs : FilterNetlog.sortAscending [10, 20, 30] = [10, 20, 30] := by decide
  have hsum : List.foldl (fun acc rtt => acc + rtt) (0 : Int) [10, 20, 30] = 60 := by decide
  unfold FilterNetlog.calculateLatencyStatistics
  rw [hv]
  simp only [hs, hsum, List.length_cons, List.length_nil, List.getD, List.getElem?_cons_zero,
    List.getElem?_cons_succ]
  norm_num [FilterNetlog.LatencyStats.mk.injEq, jsRound2_twenty]

theorem stats4_eval : FilterNetlog.calculateLatencyStatistics streamsRtt4 = ⟨4, 25, 25⟩ := by
  have hv : FilterNetlog.validRtts streamsRtt4 = [10, 20, 30, 40] := by decide
  have hs : FilterNetlog.sortAscending [10, 20, 30, 40] = [10, 20, 30, 40] := by decide
  have hsum : List.foldl (fun acc rtt => acc + rtt) (0 : Int) [10, 20, 30, 40] = 100 := by
    decide
  unfold FilterNetlog.calculateLatencyStatistics
  rw [hv]
  simp only [hs, hsum, List.length_cons, List.length_nil, List.getD, List.getElem?_cons_zero,
    List.getElem?_cons_succ]
  norm_num [FilterNetlog.LatencyStats.mk.injEq, jsRound2_twentyfive]

theorem statsMixed_eval :
    FilterNetlog.calculateLatencyStatistics streamsRttMixed = ⟨3, 20, 20⟩ := by
  have hv : FilterNetlog.validRtts streamsRttMixed = [10, 20, 30] := by decide
  have hs : FilterNetlog.sortAscending [10, 20, 30] = [10, 20, 30] := by decide
  have hsum : List.foldl (fun acc rtt => acc + rtt) (0 : Int) [10, 20, 30] = 60 := by decide
  unfold FilterNetlog.calculateLatencyStatistics
  rw [hv]
  simp only [hs, hsum, List.length_cons, List.length_nil, List.getD, List.getElem?_cons_zero,
    List.getElem?_cons_succ]
  norm_num [FilterNetlog.LatencyStats.mk.injEq, jsRound2_twenty]

/-- C5: `calculateLatencyStatistics` computes over exactly the streams with
non-null `rtt >= 0`: its output is unchanged when the input is restricted to
those streams (so negative rtts are excluded, not clamped), `count_rtt` is the
number of such streams, zero qualifying streams yield
`{count_rtt: 0, mean_rtt: 0, median_rtt: 0}`, and on the P4 synthetic sets the
mean and the even/odd sorted-middle median (rounded to 2 decimals) come out as
claimed: rtts 10/20/30 give count 3, mean 20, median 20; rtts 10/20/30/40 give
median 25; a -5 rtt and an unpaired stream are ignored. -/
theorem c5_latency_statistics (latencyStreams : List FilterNetlog.LatencyStream) :
    FilterNetlog.calculateLatencyStatistics latencyStreams =
      FilterNetlog.calculateLatencyStatistics
        (latencyStreams.filter FilterNetlog.validRttPred) ∧
    (FilterNetlog.calculateLatencyStatistics latencyStreams).count_rtt =
      (latencyStreams.filter FilterNetlog.validRttPred).length ∧
    (latencyStreams.filter FilterNetlog.validRttPred = [] →
      FilterNetlog.calculateLatencyStatistics latencyStreams = ⟨0, 0, 0⟩) ∧
    FilterNetlog.calculateLatencyStatistics streamsRtt3 = ⟨3, 20, 20⟩ ∧
    FilterNetlog.calculateLatencyStatistics streamsRtt4 = ⟨4, 25, 25⟩ ∧
    FilterNetlog.calculateLatencyStatistics streamsRttMixed = ⟨3, 20, 20⟩ := by
  refine ⟨?_, ?_, ?_, stats3_eval, stats4_eval, statsMixed_eval⟩
  · unfold FilterNetlog.calculateLatencyStatistics
    rw [validRtts_filter]
  · by_cases h : (FilterNetlog.validRtts latencyStreams).length = 0
    · have h2 : (latencyStreams.filter FilterNetlog.validRttPred).length = 0 := by
        rw [← validRtts_length]; exact h
      simp [FilterNetlog.calculateLatencyStatistics, h, h2]
    · unfold FilterNetlog.calculateLatencyStatistics
      rw [if_neg h]
      exact validRtts_length latencyStreams
  · intro h
    have h2 : FilterNetlog.validRtts latencyStreams = [] := by
      unfold FilterNetlog.validRtts
      rw [h, List.map_nil]
    simp [FilterNetlog.calculateLatencyStatistics, h2]

/-- C5 witness: a single stream whose rtt never materialized qualifies nowhere,
and the statistics are the all-zero record. -/
theorem c5_witness :
    FilterNetlog.calculateLatencyStatistics [⟨7, some 0, none, none⟩] = ⟨0, 0, 0⟩ :=
  (c5_latency_statistics [⟨7, some 0, none, none⟩]).2.2.1 (by decide)

/-- C10: direction precedence.  When the URL-list file holds a non-empty
download list, both direction selectors (`splitTestTypeUrls` of part_005 and
`getUrlTypeAndForm` of filter-netlog-data.js) pick the download direction with
the download URLs as the payload form, and their whole output is invariant
under replacing the upload list; the upload direction is selected only when
the download list is empty. -/
theorem c10_direction_precedence :
    (∀ (j : FilterNetlog.UrlJson), j.download ≠ [] →
      (FilterNetlog.splitTestTypeUrls j).testType = "download" ∧
      (FilterNetlog.splitTestTypeUrls j).split_urls = j.download.map splitUrl ∧
      ∀ up, FilterNetlog.splitTestTypeUrls { j with upload := up } =
        FilterNetlog.splitTestTypeUrls j) ∧
    (∀ (j : FilterNetlog.UrlJson), j.download = [] → j.upload ≠ [] →
      (FilterNetlog.splitTestTypeUrls j).testType = "upload" ∧
      (FilterNetlog.splitTestTypeUrls j).split_urls = j.upload.map splitUrl) ∧
    (∀ (j : FilterNetlogData.UrlJsonFull), j.download ≠ [] →
      (FilterNetlogData.getUrlTypeAndForm j).urltype = "download" ∧
      (FilterNetlogData.getUrlTypeAndForm j).form = j.download ∧
      ∀ up, FilterNetlogData.getUrlTypeAndForm { j with upload := up } =
        FilterNetlogData.getUrlTypeAndForm j) := by
  refine ⟨?_, ?_, ?_⟩
  · intro j h
    have hl : 0 < j.download.length := List.length_pos.mpr h
    refine ⟨?_, ?_, ?_⟩
    · simp [FilterNetlog.splitTestTypeUrls, hl]
    · simp [FilterNetlog.splitTestTypeUrls, hl]
    · intro up
      simp [FilterNetlog.splitTestTypeUrls, hl]
  · intro j hd hu
    have hl : 0 < j.upload.length := List.length_pos.mpr hu
    have hd0 : ¬ 0 < j.download.length := by simp [hd]
    constructor
    · simp [FilterNetlog.splitTestTypeUrls, hd0, hl]
    · simp [FilterNetlog.splitTestTypeUrls, hd0, hl]
  · intro j h
    have hl : 0 < j.download.length := List.length_pos.mpr h
    refine ⟨?_, ?_, ?_⟩
    · unfold FilterNetlogData.getUrlTypeAndForm
      simp only [hl, if_true]
      repeat' split
      all_goals simp_all
    · unfold FilterNetlogData.getUrlTypeAndForm
      simp only [hl, if_true]
      repeat' split
      all_goals simp_all
    · intro up
      unfold FilterNetlogData.getUrlTypeAndForm
      simp only [hl, if_true]

/-- C10 witness: concrete URL-list files with both directions non-empty select
download, and upload is selected only once the download list is empty. -/
theorem c10_witness :
    (FilterNetlog.splitTestTypeUrls
      ⟨["http://s:8080/download?nocache=1"], ["http://s:8080/upload?nocache=1"], [], []⟩).testType
        = "download" ∧
    (FilterNetlogData.getUrlTypeAndForm
      ⟨["http://s:8080/download?nocache=1"], ["http://s:8080/upload?nocache=1"], [], [],
        none, none⟩).urltype = "download" ∧
    (FilterNetlog.splitTestTypeUrls
      ⟨[], ["http://s:8080/upload?nocache=1"], [], []⟩).testType = "upload" := by
  have h1 := c10_direction_precedence.1
    ⟨["http://s:8080/download?nocache=1"], ["http://s:8080/upload?nocache=1"], [], []⟩
    (by decide)
  have h2 := c10_direction_precedence.2.2
    ⟨["http://s:8080/download?nocache=1"], ["http://s:8080/upload?nocache=1"], [], [],
      none, none⟩ (by decide)
  have h3 := c10_direction_precedence.2.1
    ⟨[], ["http://s:8080/upload?nocache=1"], [], []⟩ rfl (by decide)
  exact ⟨h1.1, h2.1, h3.1⟩

theorem updateLatencyStream_id (ids : LogIds) (e : Event) (s : FilterNetlog.LatencyStream) :
    (FilterNetlog.updateLatencyStream ids e s).id = s.id := by
  unfold FilterNetlog.updateLatencyStream
  dsimp only
  split_ifs <;> rfl

theorem updateLatencyStream_send (ids : LogIds) (e : Event) (s : FilterNetlog.LatencyStream)
    (hne : ids.HTTP_TRANSACTION_SEND_REQUEST_HEADERS ≠
      ids.HTTP_TRANSACTION_READ_RESPONSE_HEADERS)
    (hty : e.type = ids.HTTP_TRANSACTION_SEND_REQUEST_HEADERS)
    (hline : (e.params.bind Params.line).isSome) :
    FilterNetlog.updateLatencyStream ids e s = { s with send_time := some e.time } := by
  unfold FilterNetlog.updateLatencyStream
  simp [hty, hline, hne]

theorem updateLatencyStream_recv (ids : LogIds) (e : Event) (s : FilterNetlog.LatencyStream)
    (hne : ids.HTTP_TRANSACTION_SEND_REQUEST_HEADERS ≠
      ids.HTTP_TRANSACTION_READ_RESPONSE_HEADERS)
    (hty : e.type = ids.HTTP_TRANSACTION_READ_RESPONSE_HEADERS) :
    FilterNetlog.updateLatencyStream ids e s =
      match s.send_time with
      | some st => { s with recv_time := some e.time, rtt := some (e.time - st) }
      | none => { s with recv_time := some e.time } := by
  have hrs : ¬ (ids.HTTP_TRANSACTION_READ_RESPONSE_HEADERS =
      ids.HTTP_TRANSACTION_SEND_REQUEST_HEADERS) := fun hc => hne hc.symm
  unfold FilterNetlog.updateLatencyStream
  cases hst : s.send_time with
  | some st => simp [hty, hst, hrs]
  | none => simp [hty, hst, hrs]

theorem find?_updateFirstLatencyStream (k : Nat)
    (f : FilterNetlog.LatencyStream → FilterNetlog.LatencyStream)
    (l : List FilterNetlog.LatencyStream) (hf : ∀ s, (f s).id = s.id) :
    (FilterNetlog.updateFirstLatencyStream k f l).find? (fun s => s.id == k) =
      (l.find? (fun s => s.id == k)).map f := by
  induction l with
  | nil => rfl
  | cons s rest ih =>
    unfold FilterNetlog.updateFirstLatencyStream
    by_cases h : s.id = k
    · rw [if_pos h]
      have h1 : List.find? (fun x => x.id == k) (f s :: rest) = some (f s) :=
        List.find?_cons_of_pos _ (by rw [hf s]; exact beq_iff_eq.mpr h)
      have h2 : List.find? (fun x => x.id == k) (s :: rest) = some s :=
        List.find?_cons_of_pos _ (beq_iff_eq.mpr h)
      rw [h1, h2]
      rfl
    · rw [if_neg h]
      have h1 : List.find? (fun x => x.id == k)
          (s :: FilterNetlog.updateFirstLatencyStream k f rest) =
          List.find? (fun x => x.id == k) (FilterNetlog.updateFirstLatencyStream k f rest) :=
        List.find?_cons_of_neg _ (by simp [h])
      have h2 : List.find? (fun x => x.id == k) (s :: rest) =
          List.find? (fun x => x.id == k) rest :=
        List.find?_cons_of_neg _ (by simp [h])
      rw [h1, h2]
      exact ih

theorem captureLatencyData_find? (ids : LogIds) (streams : List FilterNetlog.LatencyStream)
    (e : Event) :
    (FilterNetlog.captureLatencyData ids streams e).find?
        (fun item => item.id == e.source_id) =
      some (FilterNetlog.updateLatencyStream ids e
        (FilterNetlog.foundOrFresh streams e.source_id)) := by
  unfold FilterNetlog.captureLatencyData FilterNetlog.foundOrFresh
  by_cases hany : streams.any (fun item => item.id == e.source_id) = true
  · rw [if_pos hany]
    obtain ⟨o, ho, hpo⟩ := List.any_eq_true.mp hany
    obtain ⟨o2, ho2⟩ : ∃ o2, streams.find? (fun item => item.id == e.source_id) = some o2 := by
      have h2 : (streams.find? (fun item => item.id == e.source_id)).isSome = true := by
        rw [List.find?_isSome]
        exact ⟨o, ho, hpo⟩
      exact Option.isSome_iff_exists.mp h2
    rw [find?_updateFirstLatencyStream _ _ _ (updateLatencyStream_id ids e), ho2]
    rfl
  · rw [if_neg hany]
    have hfn : streams.find? (fun item => item.id == e.source_id) = none := by
      rw [List.find?_eq_none]
      intro x hx
      exact fun hp => hany (List.any_eq_true.mpr ⟨x, hx, hp⟩)
    rw [List.find?_append, hfn]
    simp only [Option.none_or, Option.getD_none]
    rw [List.find?_cons_of_pos _ (by rw [updateLatencyStream_id]; exact beq_self_eq_true _)]

/-- C6 counterexample: feeding `captureLatencyData` a read-response-headers
event at time 5 and then a send-request-headers event at time 1 on the same
source id leaves the stream with both timestamps set but `rtt` still null —
the pair became complete at the send event and `rtt` was NOT recomputed as
`recv_time - send_time`, refuting the claim that rtt is recomputed whenever
both timestamps become available.  The second conjunct shows a send event
without `params.line` does not overwrite `send_time` either. -/
theorem c6_counterexample :
    ([c6RecvEvent, c6SendEvent].foldl (FilterNetlog.captureLatencyData demoIds) [] =
      [⟨0, some 1, some 5, none⟩] ∧
    (FilterNetlog.LatencyStream.mk 0 (some 1) (some 5) none).rtt ≠ some ((5 : Int) - 1)) ∧
    FilterNetlog.captureLatencyData demoIds [⟨0, none, none, none⟩]
        ⟨demoIds.HTTP_TRANSACTION_SEND_REQUEST_HEADERS, 9, 0, some Params.empty⟩ =
      [⟨0, none, none, none⟩] := by
  refine ⟨⟨by decide, by decide⟩, by decide⟩

/-- C6 (amended): in `captureLatencyData`, a send-request-headers event
carrying `params.line` overwrites `send_time` with that event's time and
leaves `recv_time` and `rtt` untouched; a read-response-headers event
overwrites `recv_time` with its time (last-value-wins on the updated slot) and
recomputes `rtt = recv_time - send_time` exactly when `send_time` is already
set — `rtt` is never recomputed by a send event, so a pair completed by a send
arriving after a receive keeps its stale (null) rtt. -/
theorem c6_latency_pair_builder (ids : LogIds) (streams : List FilterNetlog.LatencyStream)
    (e : Event)
    (hne : ids.HTTP_TRANSACTION_SEND_REQUEST_HEADERS ≠
      ids.HTTP_TRANSACTION_READ_RESPONSE_HEADERS) :
    (e.type = ids.HTTP_TRANSACTION_SEND_REQUEST_HEADERS →
      (e.params.bind Params.line).isSome →
      (FilterNetlog.captureLatencyData ids streams e).find?
          (fun item => item.id == e.source_id) =
        some { FilterNetlog.foundOrFresh streams e.source_id with send_time := some e.time }) ∧
    (e.type = ids.HTTP_TRANSACTION_READ_RESPONSE_HEADERS →
      (FilterNetlog.captureLatencyData ids streams e).find?
          (fun item => item.id == e.source_id) =
        some (match (FilterNetlog.foundOrFresh streams e.source_id).send_time with
          | some st =>
            { FilterNetlog.foundOrFresh streams e.source_id with
                recv_time := some e.time, rtt := some (e.time - st) }
          | none =>
            { FilterNetlog.foundOrFresh streams e.source_id with
                recv_time := some e.time })) := by
  constructor
  · intro hty hline
    rw [captureLatencyData_find?,
      updateLatencyStream_send ids e (FilterNetlog.foundOrFresh streams e.source_id) hne hty hline]
  · intro hty
    rw [captureLatencyData_find?,
      updateLatencyStream_recv ids e (FilterNetlog.foundOrFresh streams e.source_id) hne hty]

/-- C6 witness: a send event with a request line at time 7 on source id 3,
against an empty pool, creates the stream and sets `send_time := 7`; a receive
event at time 9 on a pool holding `send_time = 2` sets `recv_time := 9` and
recomputes `rtt = 7`. -/
theorem c6_witness :
    (FilterNetlog.captureLatencyData demoIds []
        ⟨demoIds.HTTP_TRANSACTION_SEND_REQUEST_HEADERS, 7, 3,
          some (lineParams "GET /hello?nocache=2 HTTP/1.1")⟩).find?
        (fun item => item.id == 3) = some ⟨3, some 7, none, none⟩ ∧
    (FilterNetlog.captureLatencyData demoIds [⟨3, some 2, none, none⟩]
        ⟨demoIds.HTTP_TRANSACTION_READ_RESPONSE_HEADERS, 9, 3, some Params.empty⟩).find?
        (fun item => item.id == 3) = some ⟨3, some 2, some 9, some 7⟩ := by
  constructor
  · exact (c6_latency_pair_builder demoIds []
      ⟨demoIds.HTTP_TRANSACTION_SEND_REQUEST_HEADERS, 7, 3,
        some (lineParams "GET /hello?nocache=2 HTTP/1.1")⟩ (by decide)).1 rfl rfl
  · exact (c6_latency_pair_builder demoIds [⟨3, some 2, none, none⟩]
      ⟨demoIds.HTTP_TRANSACTION_READ_RESPONSE_HEADERS, 9, 3, some Params.empty⟩
      (by decide)).2 rfl

theorem stepEvent_results (ids : LogIds) (su sun sl : List String) (ty : String)
    (st : FilterNetlog.NetState) (n : Nat) (e : Event) :
    (FilterNetlog.stepEvent ids su sun sl ty st n e).results =
      if FilterNetlog.isOpening ids su e then st.results ++ [⟨e.source_id, n, e⟩]
      else st.results := rfl

theorem stepEvent_guard_any (ids : LogIds) (su : List String)
    (st : FilterNetlog.NetState) (n : Nat) (e : Event) :
    ((if FilterNetlog.isOpening ids su e then st.results ++ [⟨e.source_id, n, e⟩]
        else st.results).any (fun result => result.sourceID == e.source_id)) =
      (st.results.any (fun result => result.sourceID == e.source_id) ||
        FilterNetlog.isOpening ids su e) := by
  cases hOp : FilterNetlog.isOpening ids su e with
  | true => simp [List.any_append]
  | false => simp

theorem stepEvent_results_any (ids : LogIds) (su sun sl : List String) (ty : String)
    (st : FilterNetlog.NetState) (n : Nat) (e : Event) (k : Nat) :
    ((FilterNetlog.stepEvent ids su sun sl ty st n e).results.any
        (fun r => r.sourceID == k)) =
      (st.results.any (fun r => r.sourceID == k) ||
        (FilterNetlog.isOpening ids su e && e.source_id == k)) := by
  rw [stepEvent_results]
  cases hOp : FilterNetlog.isOpening ids su e with
  | true => simp [List.any_append]
  | false => simp

theorem captureThroughputData_byte (ids : LogIds) (ty : String)
    (results : List FilterNetlog.ResultEntry) (byte : List FilterNetlog.ByteTimeRecord)
    (cur : List FilterNetlog.PositionRecord) (e : Event) :
    (FilterNetlog.captureThroughputData ids ty results byte cur e).1 =
      if results.any (fun result => result.sourceID == e.source_id) &&
          FilterNetlog.qualifiesByteEvent ids ty e then
        FilterNetlog.pushByteProgress e.source_id ty
          ⟨(e.params.bind Params.byte_count).getD 0, e.time⟩ byte
      else byte := by
  unfold FilterNetlog.captureThroughputData FilterNetlog.qualifiesByteEvent
  cases h1 : results.any (fun result => result.sourceID == e.source_id) with
  | false => simp [h1]
  | true =>
    cases h2 : ((e.type == ids.URL_REQUEST_JOB_FILTERED_BYTES_READ
        || e.type == ids.URL_REQUEST_BYTES_READ)
        && e.params.isSome && (ty == "download")
        && (e.params.bind Params.byte_count).isSome) with
    | true => simp [h1, h2]
    | false =>
      cases h3 : (e.type == ids.UPLOAD_DATA_STREAM_READ
          && e.params.isSome && (ty == "upload")
          && (e.params.bind Params.current_position).isSome) with
      | true => simp [h1, h2, h3]
      | false => simp [h1, h2, h3]

theorem captureThroughputData_cur (ids : LogIds) (ty : String)
    (results : List FilterNetlog.ResultEntry) (byte : List FilterNetlog.ByteTimeRecord)
    (cur : List FilterNetlog.PositionRecord) (e : Event) :
    (FilterNetlog.captureThroughputData ids ty results byte cur e).2 =
      if results.any (fun result => result.sourceID == e.source_id) &&
          FilterNetlog.qualifiesPositionEvent ids ty e then
        FilterNetlog.pushPositionProgress e.source_id ty
          ⟨(e.params.bind Params.current_position).getD 0, e.time⟩ cur
      else cur := by
  unfold FilterNetlog.captureThroughputData FilterNetlog.qualifiesPositionEvent
  cases h1 : results.any (fun result => result.sourceID == e.source_id) with
  | false => simp [h1]
  | true =>
    cases h2 : ((e.type == ids.URL_REQUEST_JOB_FILTERED_BYTES_READ
        || e.type == ids.URL_REQUEST_BYTES_READ)
        && e.params.isSome && (ty == "download")
        && (e.params.bind Params.byte_count).isSome) with
    | true =>
      have h2' := h2
      simp only [Bool.and_eq_true, beq_iff_eq] at h2'
      have hd : ty = "download" := h2'.1.2
      have hne : ¬ (("download" : String) = "upload") := by decide
      simp [h1, h2, hd, hne]
    | false =>
      cases h3 : (e.type == ids.UPLOAD_DATA_STREAM_READ
          && e.params.isSome && (ty == "upload")
          && (e.params.bind Params.current_position).isSome) with
      | true => simp [h1, h2, h3]
      | false => simp [h1, h2, h3]

theorem stepEvent_byte (ids : LogIds) (su sun sl : List String) (ty : String)
    (st : FilterNetlog.NetState) (n : Nat) (e : Event) :
    (FilterNetlog.stepEvent ids su sun sl ty st n e).byte_time_list =
      if (st.results.any (fun result => result.sourceID == e.source_id) ||
          FilterNetlog.isOpening ids su e) && FilterNetlog.qualifiesByteEvent ids ty e then
        FilterNetlog.pushByteProgress e.source_id ty
          ⟨(e.params.bind Params.byte_count).getD 0, e.time⟩ st.byte_time_list
      else st.byte_time_list := by
  show (if (if FilterNetlog.isOpening ids su e then st.results ++ [⟨e.source_id, n, e⟩]
        else st.results).any (fun result => result.sourceID == e.source_id) then
      FilterNetlog.captureThroughputData ids ty
        (if FilterNetlog.isOpening ids su e then st.results ++ [⟨e.source_id, n, e⟩]
          else st.results) st.byte_time_list st.current_position_list e
    else (st.byte_time_list, st.current_position_list)).1 = _
  rw [stepEvent_guard_any]
  cases hG : (st.results.any (fun result => result.sourceID == e.source_id) ||
      FilterNetlog.isOpening ids su e) with
  | false => simp [hG]
  | true =>
    rw [if_pos rfl, captureThroughputData_byte, stepEvent_guard_any, hG]

theorem stepEvent_cur (ids : LogIds) (su sun sl : List String) (ty : String)
    (st : FilterNetlog.NetState) (n : Nat) (e : Event) :
    (FilterNetlog.stepEvent ids su sun sl ty st n e).current_position_list =
      if (st.results.any (fun result => result.sourceID == e.source_id) ||
          FilterNetlog.isOpening ids su e) && FilterNetlog.qualifiesPositionEvent ids ty e then
        FilterNetlog.pushPositionProgress e.source_id ty
          ⟨(e.params.bind Params.current_position).getD 0, e.time⟩ st.current_position_list
      else st.current_position_list := by
  show (if (if FilterNetlog.isOpening ids su e then st.results ++ [⟨e.source_id, n, e⟩]
        else st.results).any (fun result => result.sourceID == e.source_id) then
      FilterNetlog.captureThroughputData ids ty
        (if FilterNetlog.isOpening ids su e then st.results ++ [⟨e.source_id, n, e⟩]
          else st.results) st.byte_time_list st.current_position_list e
    else (st.byte_time_list, st.current_position_list)).2 = _
  rw [stepEvent_guard_any]
  cases hG : (st.results.any (fun result => result.sourceID == e.source_id) ||
      FilterNetlog.isOpening ids su e) with
  | false => simp [hG]
  | true =>
    rw [if_pos rfl, captureThroughputData_cur, stepEvent_guard_any, hG]

theorem byteProgressOf_cons (x : FilterNetlog.ByteTimeRecord)
    (xs : List FilterNetlog.ByteTimeRecord) (k : Nat) :
    FilterNetlog.byteProgressOf (x :: xs) k =
      if x.id = k then x.progress else FilterNetlog.byteProgressOf xs k := by
  unfold FilterNetlog.byteProgressOf
  by_cases h : x.id = k
  · have h1 : List.find? (fun r => r.id == k) (x :: xs) = some x :=
      List.find?_cons_of_pos _ (beq_iff_eq.mpr h)
    rw [h1, if_pos h]
  · have h1 : List.find? (fun r => r.id == k) (x :: xs) =
        List.find? (fun r => r.id == k) xs :=
      List.find?_cons_of_neg _ (by simp [h])
    rw [h1, if_neg h]

theorem positionProgressOf_cons (x : FilterNetlog.PositionRecord)
    (xs : List FilterNetlog.PositionRecord) (k : Nat) :
    FilterNetlog.positionProgressOf (x :: xs) k =
      if x.id = k then x.progress else FilterNetlog.positionProgressOf xs k := by
  unfold FilterNetlog.positionProgressOf
  by_cases h : x.id = k
  · have h1 : List.find? (fun r => r.id == k) (x :: xs) = some x :=
      List.find?_cons_of_pos _ (beq_iff_eq.mpr h)
    rw [h1, if_pos h]
  · have h1 : List.find? (fun r => r.id == k) (x :: xs) =
        List.find? (fun r => r.id == k) xs :=
      List.find?_cons_of_neg _ (by simp [h])
    rw [h1, if_neg h]

theorem byteProgressOf_pushByteProgress (id : Nat) (ty : String)
    (p : FilterNetlog.ByteProgress) (l : List FilterNetlog.ByteTimeRecord) (k : Nat) :
    FilterNetlog.byteProgressOf (FilterNetlog.pushByteProgress id ty p l) k =
      FilterNetlog.byteProgressOf l k ++ (if k = id then [p] else []) := by
  induction l with
  | nil =>
    unfold FilterNetlog.pushByteProgress
    rw [byteProgressOf_cons]
    by_cases h : k = id
    · simp [FilterNetlog.byteProgressOf, h]
    · have h2 : ¬ id = k := fun hc => h hc.symm
      simp [FilterNetlog.byteProgressOf, h, h2]
  | cons a rest ih =>
    unfold FilterNetlog.pushByteProgress
    by_cases ha : a.id = id
    · rw [if_pos ha, byteProgressOf_cons, byteProgressOf_cons]
      by_cases hk : a.id = k
      · rw [if_pos hk, if_pos hk]
        rw [show k = id from hk ▸ ha]
        simp
      · rw [if_neg hk, if_neg hk]
        have : ¬ k = id := fun hc => hk (by rw [ha, hc])
        simp [this]
    · rw [if_neg ha, byteProgressOf_cons, byteProgressOf_cons]
      by_cases hk : a.id = k
      · rw [if_pos hk, if_pos hk]
        have : ¬ k = id := fun hc => ha (by rw [hk, hc])
        simp [this]
      · rw [if_neg hk, if_neg hk]
        exact ih

theorem positionProgressOf_pushPositionProgress (id : Nat) (ty : String)
    (p : FilterNetlog.PositionProgress) (l : List FilterNetlog.PositionRecord) (k : Nat) :
    FilterNetlog.positionProgressOf (FilterNetlog.pushPositionProgress id ty p l) k =
      FilterNetlog.positionProgressOf l k ++ (if k = id then [p] else []) := by
  induction l with
  | nil =>
    unfold FilterNetlog.pushPositionProgress
    rw [positionProgressOf_cons]
    by_cases h : k = id
    · simp [FilterNetlog.positionProgressOf, h]
    · have h2 : ¬ id = k := fun hc => h hc.symm
      simp [FilterNetlog.positionProgressOf, h, h2]
  | cons a rest ih =>
    unfold FilterNetlog.pushPositionProgress
    by_cases ha : a.id = id
    · rw [if_pos ha, positionProgressOf_cons, positionProgressOf_cons]
      by_cases hk : a.id = k
      · rw [if_pos hk, if_pos hk]
        rw [show k = id from hk ▸ ha]
        simp
      · rw [if_neg hk, if_neg hk]
        have : ¬ k = id := fun hc => hk (by rw [ha, hc])
        simp [this]
    · rw [if_neg ha, positionProgressOf_cons, positionProgressOf_cons]
      by_cases hk : a.id = k
      · rw [if_pos hk, if_pos hk]
        have : ¬ k = id := fun hc => ha (by rw [hk, hc])
        simp [this]
      · rw [if_neg hk, if_neg hk]
        exact ih

theorem mem_pushByteProgress (id : Nat) (ty : String) (p : FilterNetlog.ByteProgress) :
    ∀ (l : List FilterNetlog.ByteTimeRecord) (r : FilterNetlog.ByteTimeRecord),
      r ∈ FilterNetlog.pushByteProgress id ty p l →
      r.id = id ∨ r.id ∈ l.map FilterNetlog.ByteTimeRecord.id := by
  intro l
  induction l with
  | nil =>
    intro r hr
    unfold FilterNetlog.pushByteProgress at hr
    rcases List.mem_singleton.mp hr with rfl
    exact Or.inl rfl
  | cons a rest ih =>
    intro r hr
    unfold FilterNetlog.pushByteProgress at hr
    by_cases h : a.id = id
    · rw [if_pos h] at hr
      rcases List.mem_cons.mp hr with rfl | hr
      · exact Or.inl h
      · exact Or.inr (List.mem_cons_of_mem _ (List.mem_map_of_mem _ hr))
    · rw [if_neg h] at hr
      rcases List.mem_cons.mp hr with rfl | hr
      · exact Or.inr (List.mem_cons_self _ _)
      · rcases ih r hr with h1 | h1
        · exact Or.inl h1
        · exact Or.inr (List.mem_cons_of_mem _ h1)

theorem mem_pushPositionProgress (id : Nat) (ty : String) (p : FilterNetlog.PositionProgress) :
    ∀ (l : List FilterNetlog.PositionRecord) (r : FilterNetlog.PositionRecord),
      r ∈ FilterNetlog.pushPositionProgress id ty p l →
      r.id = id ∨ r.id ∈ l.map FilterNetlog.PositionRecord.id := by
  intro l
  induction l with
  | nil =>
    intro r hr
    unfold FilterNetlog.pushPositionProgress at hr
    rcases List.mem_singleton.mp hr with rfl
    exact Or.inl rfl
  | cons a rest ih =>
    intro r hr
    unfold FilterNetlog.pushPositionProgress at hr
    by_cases h : a.id = id
    · rw [if_pos h] at hr
      rcases List.mem_cons.mp hr with rfl | hr
      · exact Or.inl h
      · exact Or.inr (List.mem_cons_of_mem _ (List.mem_map_of_mem _ hr))
    · rw [if_neg h] at hr
      rcases List.mem_cons.mp hr with rfl | hr
      · exact Or.inr (List.mem_cons_self _ _)
      · rcases ih r hr with h1 | h1
        · exact Or.inl h1
        · exact Or.inr (List.mem_cons_of_mem _ h1)

theorem specByteProgress_cons (ids : LogIds) (su : List String) (ty : String) (k : Nat)
    (e : Event) (rest : List Event) (recog : Bool) :
    FilterNetlog.specByteProgress ids su ty k (e :: rest) recog =
      (if (recog || (FilterNetlog.isOpening ids su e && e.source_id == k)) &&
          FilterNetlog.qualifiesByteEvent ids ty e && (e.source_id == k) then
        [⟨(e.params.bind Params.byte_count).getD 0, e.time⟩] else []) ++
      FilterNetlog.specByteProgress ids su ty k rest
        (recog || (FilterNetlog.isOpening ids su e && e.source_id == k)) := by
  rw [show FilterNetlog.specByteProgress ids su ty k (e :: rest) recog =
      (if (recog || (FilterNetlog.isOpening ids su e && e.source_id == k)) &&
          FilterNetlog.qualifiesByteEvent ids ty e && (e.source_id == k) then
        (⟨(e.params.bind Params.byte_count).getD 0, e.time⟩ : FilterNetlog.ByteProgress) ::
          FilterNetlog.specByteProgress ids su ty k rest
            (recog || (FilterNetlog.isOpening ids su e && e.source_id == k))
      else FilterNetlog.specByteProgress ids su ty k rest
        (recog || (FilterNetlog.isOpening ids su e && e.source_id == k))) from rfl]
  split
  · simp
  · simp

theorem specPositionProgress_cons (ids : LogIds) (su : List String) (ty : String) (k : Nat)
    (e : Event) (rest : List Event) (recog : Bool) :
    FilterNetlog.specPositionProgress ids su ty k (e :: rest) recog =
      (if (recog || (FilterNetlog.isOpening ids su e && e.source_id == k)) &&
          FilterNetlog.qualifiesPositionEvent ids ty e && (e.source_id == k) then
        [⟨(e.params.bind Params.current_position).getD 0, e.time⟩] else []) ++
      FilterNetlog.specPositionProgress ids su ty k rest
        (recog || (FilterNetlog.isOpening ids su e && e.source_id == k)) := by
  rw [show FilterNetlog.specPositionProgress ids su ty k (e :: rest) recog =
      (if (recog || (FilterNetlog.isOpening ids su e && e.source_id == k)) &&
          FilterNetlog.qualifiesPositionEvent ids ty e && (e.source_id == k) then
        (⟨(e.params.bind Params.current_position).getD 0, e.time⟩ :
            FilterNetlog.PositionProgress) ::
          FilterNetlog.specPositionProgress ids su ty k rest
            (recog || (FilterNetlog.isOpening ids su e && e.source_id == k))
      else FilterNetlog.specPositionProgress ids su ty k rest
        (recog || (FilterNetlog.isOpening ids su e && e.source_id == k))) from rfl]
  split
  · simp
  · simp

theorem runEvents_cons (ids : LogIds) (su sun sl : List String) (ty : String)
    (st : FilterNetlog.NetState) (n : Nat) (e : Event) (rest : List Event) :
    FilterNetlog.runEvents ids su sun sl ty st n (e :: rest) =
      FilterNetlog.runEvents ids su sun sl ty
        (FilterNetlog.stepEvent ids su sun sl ty st n e) (n + 1) rest := rfl

theorem stepEvent_byteProgressOf (ids : LogIds) (su sun sl : List String) (ty : String)
    (st : FilterNetlog.NetState) (n : Nat) (e : Event) (k : Nat) :
    FilterNetlog.byteProgressOf
        ((FilterNetlog.stepEvent ids su sun sl ty st n e).byte_time_list) k =
      FilterNetlog.byteProgressOf st.byte_time_list k ++
        (if (st.results.any (fun r => r.sourceID == k) ||
            (FilterNetlog.isOpening ids su e && e.source_id == k)) &&
            FilterNetlog.qualifiesByteEvent ids ty e && (e.source_id == k) then
          [⟨(e.params.bind Params.byte_count).getD 0, e.time⟩] else []) := by
  rw [stepEvent_byte]
  by_cases hsrc : e.source_id = k
  · subst hsrc
    simp only [beq_self_eq_true, Bool.and_true]
    split
    · rw [byteProgressOf_pushByteProgress]
      simp
    · simp
  · have hf : (e.source_id == k) = false := by simp [hsrc]
    simp only [hf, Bool.and_false, if_false, List.append_nil]
    split
    · rw [byteProgressOf_pushByteProgress]
      have h2 : ¬ k = e.source_id := fun hc => hsrc hc.symm
      simp [h2]
    · simp

theorem stepEvent_positionProgressOf (ids : LogIds) (su sun sl : List String) (ty : String)
    (st : FilterNetlog.NetState) (n : Nat) (e : Event) (k : Nat) :
    FilterNetlog.positionProgressOf
        ((FilterNetlog.stepEvent ids su sun sl ty st n e).current_position_list) k =
      FilterNetlog.positionProgressOf st.current_position_list k ++
        (if (st.results.any (fun r => r.sourceID == k) ||
            (FilterNetlog.isOpening ids su e && e.source_id == k)) &&
            FilterNetlog.qualifiesPositionEvent ids ty e && (e.source_id == k) then
          [⟨(e.params.bind Params.current_position).getD 0, e.time⟩] else []) := by
  rw [stepEvent_cur]
  by_cases hsrc : e.source_id = k
  · subst hsrc
    simp only [beq_self_eq_true, Bool.and_true]
    split
    · rw [positionProgressOf_pushPositionProgress]
      simp
    · simp
  · have hf : (e.source_id == k) = false := by simp [hsrc]
    simp only [hf, Bool.and_false, if_false, List.append_nil]
    split
    · rw [positionProgressOf_pushPositionProgress]
      have h2 : ¬ k = e.source_id := fun hc => hsrc hc.symm
      simp [h2]
    · simp

theorem runEvents_results_map (ids : LogIds) (su sun sl : List String) (ty : String)
    (evs : List Event) : ∀ (st : FilterNetlog.NetState) (n : Nat),
    ((FilterNetlog.runEvents ids su sun sl ty st n evs).results).map
        FilterNetlog.ResultEntry.sourceID =
      st.results.map FilterNetlog.ResultEntry.sourceID ++
        FilterNetlog.openingIds ids su evs := by
  induction evs with
  | nil => intro st n; simp [FilterNetlog.runEvents, FilterNetlog.openingIds]
  | cons e rest ih =>
    intro st n
    rw [runEvents_cons, ih, stepEvent_results]
    cases hOp : FilterNetlog.isOpening ids su e with
    | true => simp [FilterNetlog.openingIds, List.filter_cons, hOp]
    | false => simp [FilterNetlog.openingIds, List.filter_cons, hOp]

theorem runEvents_byteProgressOf (ids : LogIds) (su sun sl : List String) (ty : String)
    (evs : List Event) : ∀ (st : FilterNetlog.NetState) (n : Nat) (k : Nat),
    FilterNetlog.byteProgressOf
        ((FilterNetlog.runEvents ids su sun sl ty st n evs).byte_time_list) k =
      FilterNetlog.byteProgressOf st.byte_time_list k ++
        FilterNetlog.specByteProgress ids su ty k evs
          (st.results.any (fun r => r.sourceID == k)) := by
  induction evs with
  | nil => intro st n k; simp [FilterNetlog.runEvents, FilterNetlog.specByteProgress]
  | cons e rest ih =>
    intro st n k
    rw [runEvents_cons, ih, stepEvent_results_any, stepEvent_byteProgressOf,
      specByteProgress_cons, List.append_assoc]

theorem runEvents_positionProgressOf (ids : LogIds) (su sun sl : List String) (ty : String)
    (evs : List Event) : ∀ (st : FilterNetlog.NetState) (n : Nat) (k : Nat),
    FilterNetlog.positionProgressOf
        ((FilterNetlog.runEvents ids su sun sl ty st n evs).current_position_list) k =
      FilterNetlog.positionProgressOf st.current_position_list k ++
        FilterNetlog.specPositionProgress ids su ty k evs
          (st.results.any (fun r => r.sourceID == k)) := by
  induction evs with
  | nil => intro st n k; simp [FilterNetlog.runEvents, FilterNetlog.specPositionProgress]
  | cons e rest ih =>
    intro st n k
    rw [runEvents_cons, ih, stepEvent_results_any, stepEvent_positionProgressOf,
      specPositionProgress_cons, List.append_assoc]

theorem runEvents_byte_closure (ids : LogIds) (su sun sl : List String) (ty : String)
    (evs : List Event) : ∀ (st : FilterNetlog.NetState) (n : Nat),
    (∀ r ∈ st.byte_time_list, st.results.any (fun x => x.sourceID == r.id) = true) →
    ∀ r ∈ (FilterNetlog.runEvents ids su sun sl ty st n evs).byte_time_list,
      (FilterNetlog.runEvents ids su sun sl ty st n evs).results.any
        (fun x => x.sourceID == r.id) = true := by
  induction evs with
  | nil => intro st n h; simpa [FilterNetlog.runEvents] using h
  | cons e rest ih =>
    intro st n h
    rw [runEvents_cons]
    apply ih
    intro r hr
    rw [stepEvent_results_any]
    rw [stepEvent_byte] at hr
    by_cases hC : (((st.results.any fun result => result.sourceID == e.source_id) ||
        FilterNetlog.isOpening ids su e) && FilterNetlog.qualifiesByteEvent ids ty e) = true
    · rw [if_pos hC] at hr
      rcases mem_pushByteProgress _ _ _ _ r hr with h1 | h1
      · rw [h1]
        have hD := hC
        simp only [Bool.and_eq_true, Bool.or_eq_true] at hD
        rcases hD.1 with hA | hOp
        · simp [hA]
        · simp [hOp]
      · obtain ⟨r', hr', hid⟩ := List.mem_map.mp h1
        have h2 := h r' hr'
        rw [← hid]
        simp [h2]
    · rw [if_neg hC] at hr
      simp [h r hr]

theorem runEvents_position_closure (ids : LogIds) (su sun sl : List String) (ty : String)
    (evs : List Event) : ∀ (st : FilterNetlog.NetState) (n : Nat),
    (∀ r ∈ st.current_position_list, st.results.any (fun x => x.sourceID == r.id) = true) →
    ∀ r ∈ (FilterNetlog.runEvents ids su sun sl ty st n evs).current_position_list,
      (FilterNetlog.runEvents ids su sun sl ty st n evs).results.any
        (fun x => x.sourceID == r.id) = true := by
  induction evs with
  | nil => intro st n h; simpa [FilterNetlog.runEvents] using h
  | cons e rest ih =>
    intro st n h
    rw [runEvents_cons]
    apply ih
    intro r hr
    rw [stepEvent_results_any]
    rw [stepEvent_cur] at hr
    by_cases hC : (((st.results.any fun result => result.sourceID == e.source_id) ||
        FilterNetlog.isOpening ids su e) && FilterNetlog.qualifiesPositionEvent ids ty e) = true
    · rw [if_pos hC] at hr
      rcases mem_pushPositionProgress _ _ _ _ r hr with h1 | h1
      · rw [h1]
        have hD := hC
        simp only [Bool.and_eq_true, Bool.or_eq_true] at hD
        rcases hD.1 with hA | hOp
        · simp [hA]
        · simp [hOp]
      · obtain ⟨r', hr', hid⟩ := List.mem_map.mp h1
        have h2 := h r' hr'
        rw [← hid]
        simp [h2]
    · rw [if_neg hC] at hr
      simp [h r hr]

/-- C3: stream recognition closure and progress-order correctness of the
part_005 event loop.  Every record of the final `byte_time_list` and
`current_position_list` carries a source id that some opening event
(`params.url` matching a direction URL with type `REQUEST_ALIVE`) was
recognized for — no throughput record exists for an id without an opening
event; and for every id, the record's progress list equals exactly the
qualifying byte-count/current-position events of that id, in arrival order,
counted from the point its id was recognized (`specByteProgress` /
`specPositionProgress` walk the events in order with a recognized flag). -/
theorem c3_stream_recognition_closure (ids : LogIds) (su sun sl : List String)
    (ty : String) (evs : List Event) :
    (∀ r ∈ (FilterNetlog.runNetlog ids su sun sl ty evs).byte_time_list,
      r.id ∈ FilterNetlog.openingIds ids su evs) ∧
    (∀ r ∈ (FilterNetlog.runNetlog ids su sun sl ty evs).current_position_list,
      r.id ∈ FilterNetlog.openingIds ids su evs) ∧
    (∀ k, FilterNetlog.byteProgressOf
        (FilterNetlog.runNetlog ids su sun sl ty evs).byte_time_list k =
      FilterNetlog.specByteProgress ids su ty k evs false) ∧
    (∀ k, FilterNetlog.positionProgressOf
        (FilterNetlog.runNetlog ids su sun sl ty evs).current_position_list k =
      FilterNetlog.specPositionProgress ids su ty k evs false) := by
  refine ⟨?_, ?_, ?_, ?_⟩
  · intro r hr
    have hany := runEvents_byte_closure ids su sun sl ty evs ⟨[], [], [], [], [], []⟩ 0
      (by intro r hr; simp at hr) r hr
    obtain ⟨x, hx, hxid⟩ := List.any_eq_true.mp hany
    have hmem : x.sourceID ∈
        ((FilterNetlog.runEvents ids su sun sl ty ⟨[], [], [], [], [], []⟩ 0 evs).results).map
          FilterNetlog.ResultEntry.sourceID :=
      List.mem_map_of_mem _ hx
    rw [runEvents_results_map] at hmem
    simp only [List.map_nil, List.nil_append] at hmem
    have hxe : x.sourceID = r.id := beq_iff_eq.mp hxid
    rwa [hxe] at hmem
  · intro r hr
    have hany := runEvents_position_closure ids su sun sl ty evs ⟨[], [], [], [], [], []⟩ 0
      (by intro r hr; simp at hr) r hr
    obtain ⟨x, hx, hxid⟩ := List.any_eq_true.mp hany
    have hmem : x.sourceID ∈
        ((FilterNetlog.runEvents ids su sun sl ty ⟨[], [], [], [], [], []⟩ 0 evs).results).map
          FilterNetlog.ResultEntry.sourceID :=
      List.mem_map_of_mem _ hx
    rw [runEvents_results_map] at hmem
    simp only [List.map_nil, List.nil_append] at hmem
    have hxe : x.sourceID = r.id := beq_iff_eq.mp hxid
    rwa [hxe] at hmem
  · intro k
    have h := runEvents_byteProgressOf ids su sun sl ty evs ⟨[], [], [], [], [], []⟩ 0 k
    simpa [FilterNetlog.byteProgressOf] using h
  · intro k
    have h := runEvents_positionProgressOf ids su sun sl ty evs ⟨[], [], [], [], [], []⟩ 0 k
    simpa [FilterNetlog.positionProgressOf] using h

/-- C3 witness: on a run with one opening `REQUEST_ALIVE` event for source 42
followed by one filtered-bytes-read event of 1000 bytes, the produced
`byte_time_list` record's id 42 is the source id of the recognized opening
event, and the progress characterization instantiates. -/
theorem c3_witness :
    (42 : Nat) ∈ FilterNetlog.openingIds demoIds c3Urls c3Events ∧
    FilterNetlog.byteProgressOf
        (FilterNetlog.runNetlog demoIds c3Urls [] [] "download" c3Events).byte_time_list 42 =
      FilterNetlog.specByteProgress demoIds c3Urls "download" 42 c3Events false := by
  have h := c3_stream_recognition_closure demoIds c3Urls [] [] "download" c3Events
  exact ⟨h.1 ⟨42, "download", [⟨1000, 101⟩]⟩ (by decide), h.2.2.1 42⟩
